import Mathlib

/-!
Shallow embedding of the pchain Tendermint-family consensus driver
(`ConsensusState` in the `consensus` package) and proofs about its
round-step transitions, locking discipline, vote handling and proposal
handling.

Conventions of the embedding:
* `uint64` heights are `Nat`, Go `int` rounds are `Int` (POL rounds can be -1);
  no arithmetic here can overflow in the claims' range.
* Byte slices are `List Nat`; a nil/empty hash is `[]`.
* External collaborators (vote-set tallies, signature checks, block
  validation, the epoch module, the cross-chain helper) are oracles carried
  in an `Env` record; the driver's own control flow is translated from the
  source line by line.
* Go panics (`PanicSanity`, `PanicConsensus`, nil-interface method calls)
  are `none`; every non-panicking path returns `some` of the new state
  together with the list of observable effects (events fired, timeouts
  scheduled, internal messages sent, votes signed).
* Calls to `enterNewRound` are additionally recorded in a `calls` trace
  (argument pairs), used to state that the driver invokes
  `enterNewRound(cs.Height, 0)` on the skip-timeout-commit path.
-/

/-- Byte strings (addresses, hashes) as lists of byte values. -/
abbrev Bytes := List Nat

/-- Header of a part set: number of parts and Merkle root. -/
structure PartSetHeader where
  total : Nat
  hash : Bytes
deriving DecidableEq

/-- A block identifier: block hash plus the header of its part set. -/
structure BlockID where
  hash : Bytes
  partsHeader : PartSetHeader
deriving DecidableEq

/-- The Go zero value `types.PartSetHeader{}`. -/
def emptyPSH : PartSetHeader := ⟨0, []⟩

/-- A consensus block, abstracted to the fields the driver inspects:
its hash (result of `Hash()`) and its height (`TdmExtra.Height`).
All other block content is read only through `Env` oracles. -/
structure TdmBlock where
  hash : Bytes
  height : Nat
deriving DecidableEq

/-- A part set, abstracted to its header; `Total()` is `header.total`. -/
structure PartSet where
  header : PartSetHeader
deriving DecidableEq

/-- Header of an optional part set; Go's `Header()` of a nil part set is the
zero header. -/
def partsHeaderOf : Option PartSet → PartSetHeader
  | none => emptyPSH
  | some p => p.header

/-- `types.TdmBlock.HashesTo` (types package, outside the driver file):
a nil block never matches, and an empty hash never matches. -/
def hashesTo : Option TdmBlock → Bytes → Bool
  | none, _ => false
  | some b, h => !h.isEmpty && (b.hash == h)

/-- `PartSet.HasHeader` on a possibly-nil part set. -/
def hasHeaderOpt : Option PartSet → PartSetHeader → Bool
  | none, _ => false
  | some p, h => p.header == h

/-- The `RoundStepType` enumeration. -/
inductive RoundStepType
  | NewHeight
  | NewRound
  | WaitForMinerBlock
  | Propose
  | Prevote
  | PrevoteWait
  | Precommit
  | PrecommitWait
  | Commit
  | Test
deriving DecidableEq

/-- Numeric value of each step, as in the Go constants 0x01 .. 0x0a. -/
def RoundStepType.val : RoundStepType → Nat
  | .NewHeight => 1
  | .NewRound => 2
  | .WaitForMinerBlock => 3
  | .Propose => 4
  | .Prevote => 5
  | .PrevoteWait => 6
  | .Precommit => 7
  | .PrecommitWait => 8
  | .Commit => 9
  | .Test => 10

/-- Vote types. -/
inductive VoteType
  | prevote
  | precommit
deriving DecidableEq

/-- A signed vote, abstracted to the fields the driver builds and reads. -/
structure Vote where
  validatorAddress : Bytes
  validatorIndex : Nat
  height : Nat
  round : Nat
  type_ : VoteType
  blockID : BlockID
deriving DecidableEq

/-- A proposal message. -/
structure Proposal where
  height : Nat
  round : Int
  blockPartsHeader : PartSetHeader
  polRound : Int
  polBlockID : BlockID
deriving DecidableEq

/-- A validator, abstracted to its address. -/
structure Validator where
  address : Bytes
deriving DecidableEq

/-- A validator set: its members and the currently selected proposer
(`GetProposer`); accumulator arithmetic is an `Env` oracle. -/
structure ValidatorSet where
  validators : List Validator
  proposer : Validator

/-- `ValidatorSet.HasAddress`. -/
def hasAddress (vs : ValidatorSet) (a : Bytes) : Bool :=
  vs.validators.any (fun v => v.address == a)

/-- `ValidatorSet.GetByAddress`, index part. -/
def indexOfAddr (vs : ValidatorSet) (a : Bytes) : Nat :=
  vs.validators.findIdx (fun v => v.address == a)

/-- The height vote set, abstracted to the queries the driver makes of it:
two-thirds majorities and two-thirds-any per round for each vote type,
`HasAll`, and `POLInfo`. -/
structure HeightVoteSet where
  prevotesMaj23 : Int → Option BlockID
  prevotesTwoThirdsAny : Int → Bool
  precommitsMaj23 : Int → Option BlockID
  precommitsTwoThirdsAny : Int → Bool
  precommitsHasAll : Int → Bool
  polRound : Int
  polBlockID : BlockID

/-- Errors `HeightVoteSet.AddVote` can produce: conflicting (equivocation)
votes carrying both signed votes, or any other failure (bad signature,
bad index, unwanted round), tagged by an opaque code. -/
inductive HVSErr
  | conflicting (existing newVote : Vote)
  | other (code : Nat)
deriving DecidableEq

/-- Errors the driver-level `addVote` can report. -/
inductive AddVoteErr
  | heightMismatch
  | hvs (e : HVSErr)
deriving DecidableEq

/-- Errors `tryAddVote` reports to its caller. -/
inductive TryAddErr
  | heightMismatch
  | conflicting (existing newVote : Vote)
  | addingVote
deriving DecidableEq

/-- Errors `defaultSetProposal` reports. -/
inductive ProposalErr
  | invalidPOLRound
  | invalidSignature
deriving DecidableEq

/-- Observable effects of a driver step: events fired on the event switch,
timeouts scheduled on the ticker, messages sent on the internal queue,
signing attempts, and calls into external collaborators. -/
inductive Effect
  | eventNewRoundStep
  | eventNewRound
  | eventCompleteProposal
  | eventTimeoutPropose
  | eventTimeoutWait
  | eventPolka
  | eventUnlock
  | eventRelock
  | eventLock
  | eventVote (v : Vote)
  | eventNewBlock
  | eventNewBlockHeader
  | scheduleTimeout (height : Nat) (round : Int) (step : RoundStepType)
  | internalProposalMsg (p : Proposal)
  | internalBlockPartMsg
  | internalVoteMsg (v : Vote)
  | signVoteAttempt (t : VoteType) (hash : Bytes) (header : PartSetHeader)
  | saveToMainChain
  | broadcastTX3
  | backendCommit
deriving DecidableEq

/-- The driver's mutable state: the `RoundState` fields the claims touch,
plus the configuration and collaborator handles the driver consults
(`privValidator`, `blockFromMiner`, `state.TdmExtra` flags, timeout
parameters, epoch numbers). -/
structure RoundState where
  Height : Nat
  Round : Int
  Step : RoundStepType
  Validators : ValidatorSet
  Proposal : Option Proposal
  ProposalBlock : Option TdmBlock
  ProposalBlockParts : Option PartSet
  LockedRound : Int
  LockedBlock : Option TdmBlock
  LockedBlockParts : Option PartSet
  Votes : HeightVoteSet
  CommitRound : Int
  privValidator : Option Bytes
  blockFromMiner : Bool
  stateHeight : Nat
  NeedToSave : Bool
  NeedToBroadcast : Bool
  skipTimeoutCommit : Bool
  epochNumber : Nat
  epochStartBlock : Nat

/-- Oracles for the external collaborators: validator-set arithmetic,
vote-set mutation, block/proof/epoch validation, and signing. -/
structure Env where
  incrementAccum : ValidatorSet → Int → ValidatorSet
  setRound : HeightVoteSet → Int → HeightVoteSet
  addVoteToHVS : Vote → HeightVoteSet → Bool × Option HVSErr × HeightVoteSet
  validateBasic : TdmBlock → Bool
  validateTX4 : TdmBlock → Bool
  chainValidator : Option (TdmBlock → Bool)
  proposedNextEpochNumber : TdmBlock → Option Nat
  validateNextEpoch : TdmBlock → Bool
  signVoteErr : Vote → Bool
  verifyProposalSig : Validator → Proposal → Bool
  signProposalErr : Proposal → Bool
  makeBlock : Bytes → Option (TdmBlock × PartSet)
  epochBytesCurrent : Bytes
  epochBytesState : Bytes
  shouldProposeNextEpoch : Bool
  epochBytesNext : Bytes

/-- Result of one driver operation: new state, effects, and the trace of
`enterNewRound` invocations (height and round arguments). -/
structure StepRes where
  st : RoundState
  fx : List Effect
  calls : List (Nat × Int)

/-- Sequencing of an optional result with a continuation on its state,
concatenating effects and call traces; `none` (panic) aborts. -/
def rseq (o : Option StepRes) (k : RoundState → Option StepRes) : Option StepRes :=
  match o with
  | none => none
  | some r =>
    match k r.st with
    | none => none
    | some r2 => some ⟨r2.st, r.fx ++ r2.fx, r.calls ++ r2.calls⟩

/-- Prepend an effect to an optional result. -/
def withFx (e : Effect) (o : Option StepRes) : Option StepRes :=
  match o with
  | none => none
  | some r => some ⟨r.st, e :: r.fx, r.calls⟩

/-- Is this node the proposer: `cs.privValidator != nil` and the proposer
address equals our address. -/
def isProposerSelf (s : RoundState) : Bool :=
  match s.privValidator with
  | none => false
  | some a => s.Validators.proposer.address == a

/-- `isProposalComplete`: we have the proposal and the proposal block, and
if a POL round was declared we have a two-thirds prevote majority there. -/
def isProposalComplete (s : RoundState) : Bool :=
  match s.Proposal with
  | none => false
  | some p =>
    match s.ProposalBlock with
    | none => false
    | some _ => if p.polRound < 0 then true else (s.Votes.prevotesMaj23 p.polRound).isSome

/-- `signVote`: build the vote the private validator signs. The round is
the current `cs.Round` (a non-negative int cast to uint64). -/
def signVote (t : VoteType) (hash : Bytes) (header : PartSetHeader)
    (s : RoundState) (addr : Bytes) : Vote :=
  { validatorAddress := addr
  , validatorIndex := indexOfAddr s.Validators addr
  , height := s.Height
  , round := s.Round.toNat
  , type_ := t
  , blockID := ⟨hash, header⟩ }

/-- `signAddVote`: if we have no key or are not in the validator set, do
nothing and return nil; otherwise sign and push the vote on the internal
queue. The `signVoteAttempt` effect records the arguments of the call,
i.e. which vote the state machine decided to cast. -/
def signAddVote (env : Env) (t : VoteType) (hash : Bytes) (header : PartSetHeader)
    (s : RoundState) : Option Vote × List Effect :=
  let att := Effect.signVoteAttempt t hash header
  match s.privValidator with
  | none => (none, [att])
  | some addr =>
    if !hasAddress s.Validators addr then (none, [att])
    else
      let v := signVote t hash header s addr
      if env.signVoteErr v then (none, [att])
      else (some v, [att, Effect.internalVoteMsg v])

/-- The list of `signAddVote` invocations recorded in an effect list:
which votes the driver decided to cast. -/
def attemptsOf : List Effect → List (VoteType × Bytes × PartSetHeader)
  | [] => []
  | Effect.signVoteAttempt t h hd :: rest => (t, h, hd) :: attemptsOf rest
  | _ :: rest => attemptsOf rest

/-- The locking triple of a state. -/
def lockTriple (s : RoundState) : Int × Option TdmBlock × Option PartSet :=
  (s.LockedRound, s.LockedBlock, s.LockedBlockParts)

/-- Does the chain-validator check of `defaultDoPrevote` fail: the backend
is a `ChainValidator` and `ValidateBlock` returns an error. -/
def chainValidatorFails (env : Env) (b : TdmBlock) : Bool :=
  match env.chainValidator with
  | none => false
  | some f => !(f b)

/-- Does the next-epoch check of `defaultDoPrevote` fail: the proposal
block's epoch bytes decode to an epoch numbered `current + 1` and
`ValidateNextEpoch` rejects it. -/
def nextEpochInvalid (env : Env) (s : RoundState) (b : TdmBlock) : Bool :=
  match env.proposedNextEpochNumber b with
  | none => false
  | some n => (n == s.epochNumber + 1) && !(env.validateNextEpoch b)

/-- `defaultDoPrevote`: prevote the locked block if locked; nil if no
proposal block; nil if basic validation, (for non-proposers) TX4 or
application validation, or next-epoch validation fails; otherwise prevote
the proposal block. Mutates nothing; returns the effects. -/
def defaultDoPrevote (env : Env) (_height : Nat) (_round : Int) (s : RoundState) :
    List Effect :=
  match s.LockedBlock with
  | some b => (signAddVote env .prevote b.hash (partsHeaderOf s.LockedBlockParts) s).2
  | none =>
    match s.ProposalBlock with
    | none => (signAddVote env .prevote [] emptyPSH s).2
    | some b =>
      if !(env.validateBasic b) then (signAddVote env .prevote [] emptyPSH s).2
      else if !(isProposerSelf s) && !(env.validateTX4 b) then
        (signAddVote env .prevote [] emptyPSH s).2
      else if !(isProposerSelf s) && chainValidatorFails env b then
        (signAddVote env .prevote [] emptyPSH s).2
      else if nextEpochInvalid env s b then
        (signAddVote env .prevote [] emptyPSH s).2
      else (signAddVote env .prevote b.hash (partsHeaderOf s.ProposalBlockParts) s).2

/-- `enterPrevote`: guard, fire `CompleteProposal` if the proposal is
complete, run the prevote rule, then (deferred) advance to step Prevote
and fire `NewRoundStep`. -/
def enterPrevote (env : Env) (height : Nat) (round : Int) (s : RoundState) :
    Option StepRes :=
  if s.Height ≠ height ∨ round < s.Round ∨
      (s.Round = round ∧ RoundStepType.Prevote.val ≤ s.Step.val) then
    some ⟨s, [], []⟩
  else
    let fx0 := if isProposalComplete s then [Effect.eventCompleteProposal] else []
    let fx1 := defaultDoPrevote env height round s
    some ⟨{ s with Round := round, Step := RoundStepType.Prevote },
          fx0 ++ fx1 ++ [Effect.eventNewRoundStep], []⟩

/-- `enterPrevoteWait`: guard, panic if there is no +2/3-any prevote at the
round, else schedule the Prevote timeout and advance to PrevoteWait. -/
def enterPrevoteWait (_env : Env) (height : Nat) (round : Int) (s : RoundState) :
    Option StepRes :=
  if s.Height ≠ height ∨ round < s.Round ∨
      (s.Round = round ∧ RoundStepType.PrevoteWait.val ≤ s.Step.val) then
    some ⟨s, [], []⟩
  else if !(s.Votes.prevotesTwoThirdsAny round) then none
  else
    some ⟨{ s with Round := round, Step := RoundStepType.PrevoteWait },
          [Effect.scheduleTimeout height round RoundStepType.PrevoteWait,
           Effect.eventNewRoundStep], []⟩

/-- `enterPrecommitWait`: guard, panic if there is no +2/3-any precommit at
the round, else schedule the Precommit timeout and advance. -/
def enterPrecommitWait (_env : Env) (height : Nat) (round : Int) (s : RoundState) :
    Option StepRes :=
  if s.Height ≠ height ∨ round < s.Round ∨
      (s.Round = round ∧ RoundStepType.PrecommitWait.val ≤ s.Step.val) then
    some ⟨s, [], []⟩
  else if !(s.Votes.precommitsTwoThirdsAny round) then none
  else
    some ⟨{ s with Round := round, Step := RoundStepType.PrecommitWait },
          [Effect.scheduleTimeout height round RoundStepType.PrecommitWait,
           Effect.eventNewRoundStep], []⟩

/-- `enterPrecommit`: guard, then dispatch on the prevote +2/3 majority at
the round: no polka means precommit nil leaving the lock alone; a nil
polka unlocks; a polka for the locked block relocks at this round; a polka
for a valid proposal block locks it; a polka for an unknown block unlocks
and re-targets the proposal part set. Deferred: advance to step Precommit
and fire `NewRoundStep`. -/
def enterPrecommit (env : Env) (height : Nat) (round : Int) (s : RoundState) :
    Option StepRes :=
  if s.Height ≠ height ∨ round < s.Round ∨
      (s.Round = round ∧ RoundStepType.Precommit.val ≤ s.Step.val) then
    some ⟨s, [], []⟩
  else
    match s.Votes.prevotesMaj23 round with
    | none =>
      some ⟨{ s with Round := round, Step := RoundStepType.Precommit },
            (signAddVote env .precommit [] emptyPSH s).2 ++ [Effect.eventNewRoundStep], []⟩
    | some blockID =>
      if s.Votes.polRound < round then none
      else if blockID.hash.isEmpty then
        if s.LockedBlock = none then
          some ⟨{ s with Round := round, Step := RoundStepType.Precommit },
                Effect.eventPolka :: (signAddVote env .precommit [] emptyPSH s).2 ++
                  [Effect.eventNewRoundStep], []⟩
        else
          let s1 := { s with LockedRound := 0, LockedBlock := none,
                             LockedBlockParts := none }
          some ⟨{ s1 with Round := round, Step := RoundStepType.Precommit },
                Effect.eventPolka :: Effect.eventUnlock ::
                  (signAddVote env .precommit [] emptyPSH s1).2 ++
                  [Effect.eventNewRoundStep], []⟩
      else if hashesTo s.LockedBlock blockID.hash then
        let s1 := { s with LockedRound := round }
        some ⟨{ s1 with Round := round, Step := RoundStepType.Precommit },
              Effect.eventPolka :: Effect.eventRelock ::
                (signAddVote env .precommit blockID.hash blockID.partsHeader s1).2 ++
                [Effect.eventNewRoundStep], []⟩
      else if hashesTo s.ProposalBlock blockID.hash then
        match s.ProposalBlock with
        | none => none
        | some pb =>
          if !(env.validateBasic pb) then none
          else
            let s1 := { s with LockedRound := round, LockedBlock := s.ProposalBlock,
                               LockedBlockParts := s.ProposalBlockParts }
            some ⟨{ s1 with Round := round, Step := RoundStepType.Precommit },
                  Effect.eventPolka :: Effect.eventLock ::
                    (signAddVote env .precommit blockID.hash blockID.partsHeader s1).2 ++
                    [Effect.eventNewRoundStep], []⟩
      else
        let s1 := { s with LockedRound := 0, LockedBlock := none,
                           LockedBlockParts := none }
        let s2 := if !(hasHeaderOpt s1.ProposalBlockParts blockID.partsHeader) then
                    { s1 with ProposalBlock := none,
                              ProposalBlockParts := some ⟨blockID.partsHeader⟩ }
                  else s1
        some ⟨{ s2 with Round := round, Step := RoundStepType.Precommit },
              Effect.eventPolka :: Effect.eventUnlock ::
                (signAddVote env .precommit [] emptyPSH s2).2 ++
                [Effect.eventNewRoundStep], []⟩

/-- `createProposalBlock`: if a miner block is present, choose the epoch
bytes (start of a new epoch, the first block, or a next-epoch proposal),
consume the miner block and build the block and its part set; otherwise
return nil. -/
def createProposalBlock (env : Env) (s : RoundState) :
    RoundState × Option (TdmBlock × PartSet) :=
  if s.blockFromMiner then
    let epochBytes : Bytes :=
      if s.Height = s.epochStartBlock then env.epochBytesCurrent
      else if s.Height = 1 then env.epochBytesState
      else if env.shouldProposeNextEpoch then env.epochBytesNext
      else []
    ({ s with blockFromMiner := false }, env.makeBlock epochBytes)
  else (s, none)

/-- Second half of `defaultDecideProposal`: build the proposal from the
chosen parts header, sign it, and send it together with the block parts
on the internal queue. -/
def mkProposalAndSend (env : Env) (height : Nat) (round : Int) (s : RoundState)
    (hdr : PartSetHeader) (total : Nat) : StepRes :=
  let proposal : Proposal :=
    ⟨height, round, hdr, s.Votes.polRound, s.Votes.polBlockID⟩
  if env.signProposalErr proposal then ⟨s, [], []⟩
  else ⟨s, Effect.internalProposalMsg proposal ::
           List.replicate total Effect.internalBlockPartMsg, []⟩

/-- `defaultDecideProposal`: propose the locked block if locked, otherwise
a freshly created proposal block; abort silently if block creation fails. -/
def defaultDecideProposal (env : Env) (height : Nat) (round : Int)
    (s : RoundState) : StepRes :=
  match s.LockedBlock with
  | some _ =>
    mkProposalAndSend env height round s (partsHeaderOf s.LockedBlockParts)
      (partsHeaderOf s.LockedBlockParts).total
  | none =>
    let c := createProposalBlock env s
    match c.2 with
    | none => ⟨c.1, [], []⟩
    | some pr => mkProposalAndSend env height round c.1 pr.2.header pr.2.header.total

/-- Body of `enterPropose` before the deferred block: flush the
cross-chain save/broadcast flags when we are the proposer, schedule the
Propose timeout, and when we are a validator and the proposer decide the
proposal. -/
def enterProposeBody (env : Env) (height : Nat) (round : Int) (s : RoundState) :
    StepRes :=
  let s1 := if s.NeedToSave && isProposerSelf s then { s with NeedToSave := false } else s
  let fx1 : List Effect :=
    if s.NeedToSave && isProposerSelf s then [Effect.saveToMainChain] else []
  let s2 := if s1.NeedToBroadcast && isProposerSelf s1 then
              { s1 with NeedToBroadcast := false } else s1
  let fx2 : List Effect :=
    if s1.NeedToBroadcast && isProposerSelf s1 then [Effect.broadcastTX3] else []
  let fx3 : List Effect := [Effect.scheduleTimeout height round RoundStepType.Propose]
  match s2.privValidator with
  | none => ⟨s2, fx1 ++ fx2 ++ fx3, []⟩
  | some _ =>
    if isProposerSelf s2 then
      let rp := defaultDecideProposal env height round s2
      ⟨rp.st, fx1 ++ fx2 ++ fx3 ++ rp.fx, rp.calls⟩
    else ⟨s2, fx1 ++ fx2 ++ fx3, []⟩

/-- `enterPropose`: guard; run the body; deferred: advance to step Propose,
fire `NewRoundStep`, and if the proposal is already complete go straight
to `enterPrevote`. -/
def enterPropose (env : Env) (height : Nat) (round : Int) (s : RoundState) :
    Option StepRes :=
  if s.Height ≠ height ∨ round < s.Round ∨
      (s.Round = round ∧ RoundStepType.Propose.val ≤ s.Step.val) then
    some ⟨s, [], []⟩
  else
    let body := enterProposeBody env height round s
    let s3 := { body.st with Round := round, Step := RoundStepType.Propose }
    if isProposalComplete s3 then
      match enterPrevote env height round s3 with
      | none => none
      | some r2 =>
        some ⟨r2.st, body.fx ++ [Effect.eventNewRoundStep] ++ r2.fx,
              body.calls ++ r2.calls⟩
    else some ⟨s3, body.fx ++ [Effect.eventNewRoundStep], body.calls⟩

/-- `enterNewRound`: guard; increment validator accumulators when skipping
ahead; reset to step NewRound, keeping round-0 proposal data; track the
next round in the height vote set; fire `NewRound`; then either wait for
the miner block (when we propose but have none) or fall through to
`enterPropose`. A nil private validator makes the proposer comparison a
nil-interface call, i.e. a panic. The pair `(height, round)` is recorded
in the call trace. -/
def enterNewRound (env : Env) (height : Nat) (round : Int) (s : RoundState) :
    Option StepRes :=
  if s.Height ≠ height ∨ round < s.Round ∨
      (s.Round = round ∧ s.Step ≠ RoundStepType.NewHeight) then
    some ⟨s, [], [(height, round)]⟩
  else
    let validators :=
      if s.Round < round then env.incrementAccum s.Validators (round - s.Round)
      else s.Validators
    let s1 := { s with Round := round, Step := RoundStepType.NewRound,
                       Validators := validators }
    let s2 := if round = 0 then s1
              else { s1 with Proposal := none, ProposalBlock := none,
                             ProposalBlockParts := none }
    let s3 := { s2 with Votes := env.setRound s2.Votes (round + 1) }
    match s3.privValidator with
    | none => none
    | some addr =>
      if s3.Validators.proposer.address == addr && !s3.blockFromMiner then
        some ⟨s3, [Effect.eventNewRound,
                   Effect.scheduleTimeout height round RoundStepType.WaitForMinerBlock],
              [(height, round)]⟩
      else
        match enterPropose env height round s3 with
        | none => none
        | some r =>
          some ⟨r.st, Effect.eventNewRound :: r.fx, (height, round) :: r.calls⟩

/-- `finalizeCommit`: bail out if not at (height, Commit); panic unless the
commit round has a +2/3 majority whose parts header and hash match the
proposal block and the block validates; then, for a not-yet-stored block,
fire the new-block events and hand the block to the backend. -/
def finalizeCommit (env : Env) (height : Nat) (s : RoundState) : Option StepRes :=
  if s.Height ≠ height ∨ s.Step ≠ RoundStepType.Commit then
    some ⟨s, [], []⟩
  else
    match s.Votes.precommitsMaj23 s.CommitRound with
    | none => none
    | some blockID =>
      match s.ProposalBlock with
      | none => none
      | some block =>
        if !(hasHeaderOpt s.ProposalBlockParts blockID.partsHeader) then none
        else if !(hashesTo (some block) blockID.hash) then none
        else if !(env.validateBasic block) then none
        else if s.stateHeight < block.height then
          some ⟨s, [Effect.eventNewBlock, Effect.eventNewBlockHeader,
                    Effect.backendCommit], []⟩
        else some ⟨s, [], []⟩

/-- `tryFinalizeCommit`: panic on a height mismatch; return quietly without
a non-nil +2/3 precommit majority or without the matching block; otherwise
finalize. -/
def tryFinalizeCommit (env : Env) (height : Nat) (s : RoundState) : Option StepRes :=
  if s.Height ≠ height then none
  else
    match s.Votes.precommitsMaj23 s.CommitRound with
    | none => some ⟨s, [], []⟩
    | some blockID =>
      if blockID.hash.isEmpty then some ⟨s, [], []⟩
      else if !(hashesTo s.ProposalBlock blockID.hash) then some ⟨s, [], []⟩
      else finalizeCommit env height s

/-- `enterCommit`: guard on height and step below Commit; panic unless the
commit round has a +2/3 precommit majority; adopt the locked block as the
proposal block when it matches, or re-target the part set when we lack the
committed block. Deferred: keep the round, move to step Commit, record the
commit round, fire `NewRoundStep`, and try to finalize. -/
def enterCommit (env : Env) (height : Nat) (commitRound : Int) (s : RoundState) :
    Option StepRes :=
  if s.Height ≠ height ∨ RoundStepType.Commit.val ≤ s.Step.val then
    some ⟨s, [], []⟩
  else
    match s.Votes.precommitsMaj23 commitRound with
    | none => none
    | some blockID =>
      let s1 := if hashesTo s.LockedBlock blockID.hash then
                  { s with ProposalBlock := s.LockedBlock,
                           ProposalBlockParts := s.LockedBlockParts }
                else s
      let s2 := if !(hashesTo s1.ProposalBlock blockID.hash) then
                  (if !(hasHeaderOpt s1.ProposalBlockParts blockID.partsHeader) then
                     { s1 with ProposalBlock := none,
                               ProposalBlockParts := some ⟨blockID.partsHeader⟩ }
                   else s1)
                else s1
      let s3 := { s2 with Step := RoundStepType.Commit, CommitRound := commitRound }
      match tryFinalizeCommit env height s3 with
      | none => none
      | some r => some ⟨r.st, Effect.eventNewRoundStep :: r.fx, r.calls⟩

/-- Timeout events delivered by the ticker. -/
structure TimeoutInfo where
  height : Nat
  round : Int
  step : RoundStepType
deriving DecidableEq

/-- `handleTimeout`: drop timeouts that are not for the current height or
are behind the current (round, step); otherwise dispatch on the timeout's
step, firing the corresponding timeout event first. An unknown step
panics. -/
def handleTimeout (env : Env) (ti : TimeoutInfo) (s : RoundState) : Option StepRes :=
  if ti.height ≠ s.Height ∨ ti.round < s.Round ∨
      (ti.round = s.Round ∧ ti.step.val < s.Step.val) then
    some ⟨s, [], []⟩
  else
    match ti.step with
    | .NewHeight => enterNewRound env ti.height 0 s
    | .WaitForMinerBlock =>
      withFx Effect.eventTimeoutPropose (enterPropose env ti.height ti.round s)
    | .Propose =>
      withFx Effect.eventTimeoutPropose (enterPrevote env ti.height ti.round s)
    | .PrevoteWait =>
      withFx Effect.eventTimeoutWait (enterPrecommit env ti.height ti.round s)
    | .PrecommitWait =>
      withFx Effect.eventTimeoutWait (enterNewRound env ti.height (ti.round + 1) s)
    | _ => none

/-- `defaultSetProposal`: silently ignore a proposal when one is already
set, when it is for another (height, round), or when the step is Commit or
later; reject an out-of-range POL round, then a bad signature against the
current proposer; otherwise store the proposal and initialize the proposal
part set from its header. -/
def defaultSetProposal (env : Env) (p : Proposal) (s : RoundState) :
    Option ProposalErr × RoundState :=
  if s.Proposal.isSome then (none, s)
  else if p.height ≠ s.Height ∨ p.round ≠ s.Round then (none, s)
  else if RoundStepType.Commit.val ≤ s.Step.val then (none, s)
  else if p.polRound ≠ -1 ∧ (p.polRound < 0 ∨ p.round ≤ p.polRound) then
    (some ProposalErr.invalidPOLRound, s)
  else if !(env.verifyProposalSig s.Validators.proposer p) then
    (some ProposalErr.invalidSignature, s)
  else
    (none, { s with Proposal := some p,
                    ProposalBlockParts := some ⟨p.blockPartsHeader⟩ })

/-- The POL-based unlock performed when a prevote is added: if locked, the
vote's round lies in `(LockedRound, Round]`, and the prevotes of that round
have a +2/3 majority for something other than the locked block, clear the
lock and fire Unlock. -/
def prevoteUnlock (votes1 : HeightVoteSet) (vr : Int) (s : RoundState) :
    RoundState × List Effect :=
  if s.LockedBlock ≠ none ∧ s.LockedRound < vr ∧ vr ≤ s.Round then
    match votes1.prevotesMaj23 vr with
    | some blockID =>
      if !(hashesTo s.LockedBlock blockID.hash) then
        ({ s with LockedRound := 0, LockedBlock := none, LockedBlockParts := none },
         [Effect.eventUnlock])
      else (s, [])
    | none => (s, [])
  else (s, [])

/-- Result of `addVote`: the added flag and error returned to the caller,
and the state/effects of the processing. -/
structure AddVoteRes where
  added : Bool
  err : Option AddVoteErr
  res : StepRes

/-- `addVote`: ignore votes below the current height; report a height
mismatch above it; otherwise add to the height vote set and, when added,
fire the Vote event and run the prevote/precommit transition cascade. -/
def addVote (env : Env) (v : Vote) (s : RoundState) : Option AddVoteRes :=
  if v.height < s.Height then
    some ⟨false, none, ⟨s, [], []⟩⟩
  else if v.height = s.Height then
    let t := env.addVoteToHVS v s.Votes
    let votes1 := t.2.2
    let s1 := { s with Votes := votes1 }
    if t.1 then
      match v.type_ with
      | .prevote =>
        let vr : Int := (v.round : Int)
        let u := prevoteUnlock votes1 vr s1
        let s2 := u.1
        let tail : Option StepRes :=
          if s2.Round ≤ vr ∧ votes1.prevotesTwoThirdsAny vr then
            rseq (enterNewRound env s.Height vr s2) (fun st =>
              if (votes1.prevotesMaj23 vr).isSome then
                enterPrecommit env s.Height vr st
              else
                rseq (enterPrevote env s.Height vr st) (fun st2 =>
                  enterPrevoteWait env s.Height vr st2))
          else
            match s2.Proposal with
            | some p =>
              if 0 ≤ p.polRound ∧ p.polRound = vr then
                (if isProposalComplete s2 then enterPrevote env s.Height s2.Round s2
                 else some ⟨s2, [], []⟩)
              else some ⟨s2, [], []⟩
            | none => some ⟨s2, [], []⟩
        match tail with
        | none => none
        | some r =>
          some ⟨true, t.2.1.map AddVoteErr.hvs, ⟨r.st, Effect.eventVote v :: u.2 ++ r.fx, r.calls⟩⟩
      | .precommit =>
        let vr : Int := (v.round : Int)
        let tail : Option StepRes :=
          match votes1.precommitsMaj23 vr with
          | some blockID =>
            if blockID.hash.isEmpty then
              enterNewRound env s.Height (vr + 1) s1
            else
              rseq (rseq (rseq (enterNewRound env s.Height vr s1) (fun st =>
                      enterPrecommit env s.Height vr st)) (fun st =>
                      enterCommit env s.Height vr st)) (fun st =>
                    if s1.skipTimeoutCommit ∧ votes1.precommitsHasAll vr then
                      enterNewRound env st.Height 0 st
                    else some ⟨st, [], []⟩)
          | none =>
            if s1.Round ≤ vr ∧ votes1.precommitsTwoThirdsAny vr then
              rseq (rseq (enterNewRound env s.Height vr s1) (fun st =>
                    enterPrecommit env s.Height vr st)) (fun st =>
                  enterPrecommitWait env s.Height vr st)
            else some ⟨s1, [], []⟩
        match tail with
        | none => none
        | some r =>
          some ⟨true, t.2.1.map AddVoteErr.hvs, ⟨r.st, Effect.eventVote v :: r.fx, r.calls⟩⟩
    else
      some ⟨false, t.2.1.map AddVoteErr.hvs, ⟨s1, [], []⟩⟩
  else
    some ⟨false, some AddVoteErr.heightMismatch, ⟨s, [], []⟩⟩

/-- `tryAddVote`: pass a height mismatch and conflicting-votes evidence
through to the caller unchanged; map every other failure to add to the
generic adding-vote error. -/
def tryAddVote (env : Env) (v : Vote) (s : RoundState) :
    Option (Option TryAddErr × StepRes) :=
  match addVote env v s with
  | none => none
  | some avr =>
    match avr.err with
    | none => some (none, avr.res)
    | some AddVoteErr.heightMismatch => some (some TryAddErr.heightMismatch, avr.res)
    | some (AddVoteErr.hvs (HVSErr.conflicting e n)) =>
      some (some (TryAddErr.conflicting e n), avr.res)
    | some (AddVoteErr.hvs (HVSErr.other _)) => some (some TryAddErr.addingVote, avr.res)

/-- Target `(h, r, step value v)` is strictly ahead of the current
`(Height, Round, Step)` in lexicographic order. -/
def aheadOf (h : Nat) (r : Int) (v : Nat) (s : RoundState) : Prop :=
  s.Height < h ∨ (s.Height = h ∧ (s.Round < r ∨ (s.Round = r ∧ s.Step.val < v)))

/-- No `NewHeight`-step timeout (the commit-wait timer) occurs in an
effect list. -/
def noNewHeightTimeout (fx : List Effect) : Prop :=
  ∀ h r, Effect.scheduleTimeout h r RoundStepType.NewHeight ∉ fx

/-- Admissible change of the locking triple during processing of round
`rProc`: unchanged, cleared to `(0, nil, nil)`, or raised to `rProc`. -/
def lockChangeOK (rProc : Int) (s s' : RoundState) : Prop :=
  lockTriple s' = lockTriple s ∨
  (s'.LockedRound = 0 ∧ s'.LockedBlock = none ∧ s'.LockedBlockParts = none) ∨
  (s'.LockedRound = rProc ∧ s.LockedRound ≤ s'.LockedRound)

/-- Concrete fixtures used by the witness theorems. -/
def val7 : Validator := ⟨[7]⟩

/-- A one-validator set whose proposer is that validator. -/
def valSet0 : ValidatorSet := ⟨[val7], val7⟩

/-- A non-nil block id. -/
def bid1 : BlockID := ⟨[1, 2], ⟨1, [3]⟩⟩

/-- The nil block id (empty hash). -/
def bidNil : BlockID := ⟨[], ⟨0, []⟩⟩

/-- A block hashing to `bid1.hash`. -/
def blk1 : TdmBlock := ⟨[1, 2], 5⟩

/-- A block with a different hash. -/
def blk2 : TdmBlock := ⟨[9, 9], 5⟩

/-- An empty height vote set: no majorities anywhere. -/
def hvs0 : HeightVoteSet :=
  ⟨fun _ => none, fun _ => false, fun _ => none, fun _ => false, fun _ => false,
   -1, bidNil⟩

/-- A height vote set with a prevote +2/3 majority for `bid` at round `r`
(and POL round `r`). -/
def hvsPrevoteMaj (r : Int) (bid : BlockID) : HeightVoteSet :=
  { hvs0 with prevotesMaj23 := fun q => if q = r then some bid else none,
              prevotesTwoThirdsAny := fun q => q = r, polRound := r }

/-- A height vote set with a precommit +2/3 majority for `bid` at round `r`
with every validator voting. -/
def hvsPrecommitMaj (r : Int) (bid : BlockID) : HeightVoteSet :=
  { hvs0 with precommitsMaj23 := fun q => if q = r then some bid else none,
              precommitsTwoThirdsAny := fun q => q = r,
              precommitsHasAll := fun q => q = r }

/-- A benign oracle environment: every validation passes, signing always
succeeds, vote-set mutation always reports the vote added. -/
def env0 : Env :=
  { incrementAccum := fun v _ => v
  , setRound := fun hv _ => hv
  , addVoteToHVS := fun _ hv => (true, none, hv)
  , validateBasic := fun _ => true
  , validateTX4 := fun _ => true
  , chainValidator := none
  , proposedNextEpochNumber := fun _ => none
  , validateNextEpoch := fun _ => true
  , signVoteErr := fun _ => false
  , verifyProposalSig := fun _ _ => true
  , signProposalErr := fun _ => false
  , makeBlock := fun _ => none
  , epochBytesCurrent := []
  , epochBytesState := []
  , shouldProposeNextEpoch := false
  , epochBytesNext := [] }

/-- A fresh round state at height 1, round 0, step NewHeight, validator
key present and in the set. -/
def rs0 : RoundState :=
  { Height := 1, Round := 0, Step := RoundStepType.NewHeight, Validators := valSet0
  , Proposal := none, ProposalBlock := none, ProposalBlockParts := none
  , LockedRound := 0, LockedBlock := none, LockedBlockParts := none
  , Votes := hvs0, CommitRound := 0, privValidator := some [7]
  , blockFromMiner := false, stateHeight := 0, NeedToSave := false
  , NeedToBroadcast := false, skipTimeoutCommit := true
  , epochNumber := 0, epochStartBlock := 10 }

/-- A concrete prevote for `bid1`. -/
def voteA : Vote := ⟨[7], 0, 1, 0, VoteType.prevote, bid1⟩

/-- A concrete conflicting prevote for nil. -/
def voteB : Vote := ⟨[7], 0, 1, 0, VoteType.prevote, bidNil⟩

/-- A concrete precommit for `bid1`. -/
def votePC : Vote := ⟨[7], 0, 1, 0, VoteType.precommit, bid1⟩

/-- An environment whose vote-set add reports conflicting votes. -/
def envConflict : Env :=
  { env0 with addVoteToHVS := fun _ hv => (false, some (HVSErr.conflicting voteA voteB), hv) }

/-- An environment whose vote-set add fails with a generic error. -/
def envBadSig : Env :=
  { env0 with addVoteToHVS := fun _ hv => (false, some (HVSErr.other 0), hv) }

/-- An environment whose vote-set add yields a full precommit majority for
`bid1` at round 0. -/
def envPCMaj : Env :=
  { env0 with addVoteToHVS := fun _ _ => (true, none, hvsPrecommitMaj 0 bid1) }

/-- A state locked on `blk2` seeing a nil prevote majority at round 0. -/
def rs9 : RoundState :=
  { rs0 with Step := RoundStepType.Prevote, LockedBlock := some blk2,
             LockedBlockParts := some ⟨⟨1, [3]⟩⟩, Votes := hvsPrevoteMaj 0 bidNil }

/-- A state at round 1 locked on `blk2` since round 0. -/
def rs9b : RoundState :=
  { rs0 with Round := 1, LockedBlock := some blk2,
             LockedBlockParts := some ⟨⟨1, [3]⟩⟩ }

lemma noNewHeightTimeout_nil : noNewHeightTimeout [] := by
  intro h r hmem
  simp at hmem

lemma noNewHeightTimeout_append {fx1 fx2 : List Effect}
    (h1 : noNewHeightTimeout fx1) (h2 : noNewHeightTimeout fx2) :
    noNewHeightTimeout (fx1 ++ fx2) := by
  intro h r hmem
  rcases List.mem_append.mp hmem with hm | hm
  · exact h1 h r hm
  · exact h2 h r hm

lemma noNewHeightTimeout_cons {e : Effect} {fx : List Effect}
    (he : ∀ h r, e ≠ Effect.scheduleTimeout h r RoundStepType.NewHeight)
    (hfx : noNewHeightTimeout fx) : noNewHeightTimeout (e :: fx) := by
  intro h r hmem
  rcases List.mem_cons.mp hmem with hm | hm
  · exact he h r hm.symm
  · exact hfx h r hm

lemma signAddVote_noNH (env : Env) (t : VoteType) (hv : Bytes)
    (hd : PartSetHeader) (s : RoundState) :
    noNewHeightTimeout (signAddVote env t hv hd s).2 := by
  unfold signAddVote
  cases s.privValidator <;> intro h r hmem <;> simp at hmem <;>
    split at hmem <;> (try split at hmem) <;> simp_all

lemma defaultDoPrevote_noNH (env : Env) (h : Nat) (r : Int) (s : RoundState) :
    noNewHeightTimeout (defaultDoPrevote env h r s) := by
  unfold defaultDoPrevote
  cases s.LockedBlock
  · cases s.ProposalBlock
    · exact signAddVote_noNH env _ _ _ s
    · repeat' split
      all_goals exact signAddVote_noNH env _ _ _ s
  · exact signAddVote_noNH env _ _ _ s

/-- Frame facts for `enterPrevote`: the height, locking triple, stored
votes, and configuration are untouched, the round does not decrease, no
`enterNewRound` call is made, and no commit-wait timeout is scheduled. -/
lemma enterPrevote_frame (env : Env) (h : Nat) (r : Int) (s : RoundState)
    (res : StepRes) (hres : enterPrevote env h r s = some res) :
    res.st.Height = s.Height ∧ lockTriple res.st = lockTriple s ∧
    s.Round ≤ res.st.Round ∧ res.calls = [] ∧ noNewHeightTimeout res.fx := by
  unfold enterPrevote at hres
  split at hres
  · cases hres
    exact ⟨rfl, rfl, le_refl _, rfl, noNewHeightTimeout_nil⟩
  · next hg =>
    cases hres
    refine ⟨rfl, rfl, ?_, rfl, ?_⟩
    · simp only []
      omega
    · refine noNewHeightTimeout_append (noNewHeightTimeout_append ?_ ?_) ?_
      · split
        · exact noNewHeightTimeout_cons (by intro a b hc; cases hc) noNewHeightTimeout_nil
        · exact noNewHeightTimeout_nil
      · exact defaultDoPrevote_noNH env h r s
      · exact noNewHeightTimeout_cons (by intro a b hc; cases hc) noNewHeightTimeout_nil

lemma mkProposalAndSend_st (env : Env) (h : Nat) (r : Int) (s : RoundState)
    (hdr : PartSetHeader) (total : Nat) :
    (mkProposalAndSend env h r s hdr total).st = s := by
  unfold mkProposalAndSend
  dsimp only
  split <;> rfl

lemma mkProposalAndSend_calls (env : Env) (h : Nat) (r : Int) (s : RoundState)
    (hdr : PartSetHeader) (total : Nat) :
    (mkProposalAndSend env h r s hdr total).calls = [] := by
  unfold mkProposalAndSend
  dsimp only
  split <;> rfl

lemma mkProposalAndSend_noNH (env : Env) (h : Nat) (r : Int) (s : RoundState)
    (hdr : PartSetHeader) (total : Nat) :
    noNewHeightTimeout (mkProposalAndSend env h r s hdr total).fx := by
  unfold mkProposalAndSend
  dsimp only
  split
  · exact noNewHeightTimeout_nil
  · refine noNewHeightTimeout_cons (by intro a b hc; cases hc) ?_
    intro a b hmem
    have := List.eq_of_mem_replicate hmem
    cases this

lemma createProposalBlock_st (env : Env) (s : RoundState) :
    (createProposalBlock env s).1.Height = s.Height ∧
    (createProposalBlock env s).1.Round = s.Round ∧
    (createProposalBlock env s).1.Step = s.Step ∧
    lockTriple (createProposalBlock env s).1 = lockTriple s := by
  unfold createProposalBlock
  split <;> exact ⟨rfl, rfl, rfl, rfl⟩

lemma defaultDecideProposal_frame (env : Env) (h : Nat) (r : Int) (s : RoundState) :
    (defaultDecideProposal env h r s).st.Height = s.Height ∧
    (defaultDecideProposal env h r s).st.Round = s.Round ∧
    (defaultDecideProposal env h r s).st.Step = s.Step ∧
    lockTriple (defaultDecideProposal env h r s).st = lockTriple s ∧
    (defaultDecideProposal env h r s).calls = [] ∧
    noNewHeightTimeout (defaultDecideProposal env h r s).fx := by
  obtain ⟨c1, c2, c3, c4⟩ := createProposalBlock_st env s
  unfold defaultDecideProposal
  cases hL : s.LockedBlock
  · dsimp only
    cases hmk : (createProposalBlock env s).2
    · exact ⟨c1, c2, c3, c4, rfl, noNewHeightTimeout_nil⟩
    · next pr =>
      rw [mkProposalAndSend_st, mkProposalAndSend_calls]
      exact ⟨c1, c2, c3, c4, rfl, mkProposalAndSend_noNH env h r _ _ _⟩
  · rw [mkProposalAndSend_st, mkProposalAndSend_calls]
    exact ⟨rfl, rfl, rfl, rfl, rfl, mkProposalAndSend_noNH env h r _ _ _⟩

lemma defaultDecideProposal_noNH (env : Env) (h : Nat) (r : Int) (s : RoundState) :
    noNewHeightTimeout (defaultDecideProposal env h r s).fx :=
  (defaultDecideProposal_frame env h r s).2.2.2.2.2

lemma ddp_Height (env : Env) (h : Nat) (r : Int) (s : RoundState) :
    (defaultDecideProposal env h r s).st.Height = s.Height :=
  (defaultDecideProposal_frame env h r s).1

lemma ddp_Round (env : Env) (h : Nat) (r : Int) (s : RoundState) :
    (defaultDecideProposal env h r s).st.Round = s.Round :=
  (defaultDecideProposal_frame env h r s).2.1

lemma ddp_LockedRound (env : Env) (h : Nat) (r : Int) (s : RoundState) :
    (defaultDecideProposal env h r s).st.LockedRound = s.LockedRound :=
  congrArg Prod.fst (defaultDecideProposal_frame env h r s).2.2.2.1

lemma ddp_LockedBlock (env : Env) (h : Nat) (r : Int) (s : RoundState) :
    (defaultDecideProposal env h r s).st.LockedBlock = s.LockedBlock :=
  congrArg (fun t => t.2.1) (defaultDecideProposal_frame env h r s).2.2.2.1

lemma ddp_LockedBlockParts (env : Env) (h : Nat) (r : Int) (s : RoundState) :
    (defaultDecideProposal env h r s).st.LockedBlockParts = s.LockedBlockParts :=
  congrArg (fun t => t.2.2) (defaultDecideProposal_frame env h r s).2.2.2.1

lemma ddp_calls (env : Env) (h : Nat) (r : Int) (s : RoundState) :
    (defaultDecideProposal env h r s).calls = [] :=
  (defaultDecideProposal_frame env h r s).2.2.2.2.1

lemma enterProposeBody_st (env : Env) (h : Nat) (r : Int) (s : RoundState) :
    (enterProposeBody env h r s).st.Height = s.Height ∧
    (enterProposeBody env h r s).st.Round = s.Round ∧
    lockTriple (enterProposeBody env h r s).st = lockTriple s ∧
    (enterProposeBody env h r s).calls = [] := by
  unfold enterProposeBody
  dsimp only
  repeat' split
  all_goals
    simp [lockTriple, ddp_Height, ddp_Round, ddp_LockedRound, ddp_LockedBlock,
          ddp_LockedBlockParts, ddp_calls]

lemma enterProposeBody_noNH (env : Env) (h : Nat) (r : Int) (s : RoundState) :
    noNewHeightTimeout (enterProposeBody env h r s).fx := by
  unfold enterProposeBody
  dsimp only
  repeat' split
  all_goals
    intro a b hmem
    simp at hmem
    try exact (defaultDecideProposal_noNH env h r _) a b hmem

lemma enterPropose_frame (env : Env) (h : Nat) (r : Int) (s : RoundState)
    (res : StepRes) (hres : enterPropose env h r s = some res) :
    res.st.Height = s.Height ∧ lockTriple res.st = lockTriple s ∧
    s.Round ≤ res.st.Round ∧ res.calls = [] ∧ noNewHeightTimeout res.fx := by
  unfold enterPropose at hres
  split at hres
  · cases hres
    exact ⟨rfl, rfl, le_refl _, rfl, noNewHeightTimeout_nil⟩
  · next hg =>
    have hr : s.Round ≤ r := by omega
    obtain ⟨b1, b2, b3, b4⟩ := enterProposeBody_st env h r s
    have b5 := enterProposeBody_noNH env h r s
    dsimp only at hres
    split at hres
    · split at hres
      · cases hres
      · next r2 heq =>
        cases hres
        obtain ⟨p1, p2, p3, p4, p5⟩ := enterPrevote_frame env h r _ r2 heq
        refine ⟨?_, ?_, ?_, ?_, ?_⟩
        · rw [p1]; exact b1
        · rw [p2]; simpa [lockTriple] using b3
        · exact le_trans hr p3
        · simp [b4, p4]
        · refine noNewHeightTimeout_append (noNewHeightTimeout_append b5 ?_) p5
          exact noNewHeightTimeout_cons (by intro a b hc; cases hc) noNewHeightTimeout_nil
    · cases hres
      refine ⟨b1, ?_, hr, b4, ?_⟩
      · simpa [lockTriple] using b3
      · exact noNewHeightTimeout_append b5
          (noNewHeightTimeout_cons (by intro a b hc; cases hc) noNewHeightTimeout_nil)

lemma enterNewRound_frame (env : Env) (h : Nat) (r : Int) (s : RoundState)
    (res : StepRes) (hres : enterNewRound env h r s = some res) :
    res.st.Height = s.Height ∧ lockTriple res.st = lockTriple s ∧
    s.Round ≤ res.st.Round ∧ res.calls = [(h, r)] ∧ noNewHeightTimeout res.fx := by
  unfold enterNewRound at hres
  split at hres
  · cases hres
    exact ⟨rfl, rfl, le_refl _, rfl, noNewHeightTimeout_nil⟩
  · next hg =>
    have hr : s.Round ≤ r := by omega
    dsimp only at hres
    repeat' split at hres
    all_goals try (exact Option.noConfusion hres)
    all_goals cases hres
    all_goals try
      exact ⟨rfl, rfl, hr, rfl, noNewHeightTimeout_cons (by intro a b hc; cases hc)
        (noNewHeightTimeout_cons (by intro a b hc; cases hc) noNewHeightTimeout_nil)⟩
    all_goals
      rename_i r2 heq
      obtain ⟨p1, p2, p3, p4, p5⟩ := enterPropose_frame env h r _ r2 heq
      exact ⟨p1, p2, le_trans hr p3, by simp [p4],
             noNewHeightTimeout_cons (by intro a b hc; cases hc) p5⟩

lemma enterPrevoteWait_frame (env : Env) (h : Nat) (r : Int) (s : RoundState)
    (res : StepRes) (hres : enterPrevoteWait env h r s = some res) :
    res.st.Height = s.Height ∧ lockTriple res.st = lockTriple s ∧
    s.Round ≤ res.st.Round ∧ res.calls = [] ∧ noNewHeightTimeout res.fx := by
  unfold enterPrevoteWait at hres
  split at hres
  · cases hres
    exact ⟨rfl, rfl, le_refl _, rfl, noNewHeightTimeout_nil⟩
  · next hg =>
    have hr : s.Round ≤ r := by omega
    split at hres
    · exact Option.noConfusion hres
    · cases hres
      exact ⟨rfl, rfl, hr, rfl, noNewHeightTimeout_cons (by intro a b hc; cases hc)
        (noNewHeightTimeout_cons (by intro a b hc; cases hc) noNewHeightTimeout_nil)⟩

lemma enterPrecommitWait_frame (env : Env) (h : Nat) (r : Int) (s : RoundState)
    (res : StepRes) (hres : enterPrecommitWait env h r s = some res) :
    res.st.Height = s.Height ∧ lockTriple res.st = lockTriple s ∧
    s.Round ≤ res.st.Round ∧ res.calls = [] ∧ noNewHeightTimeout res.fx := by
  unfold enterPrecommitWait at hres
  split at hres
  · cases hres
    exact ⟨rfl, rfl, le_refl _, rfl, noNewHeightTimeout_nil⟩
  · next hg =>
    have hr : s.Round ≤ r := by omega
    split at hres
    · exact Option.noConfusion hres
    · cases hres
      exact ⟨rfl, rfl, hr, rfl, noNewHeightTimeout_cons (by intro a b hc; cases hc)
        (noNewHeightTimeout_cons (by intro a b hc; cases hc) noNewHeightTimeout_nil)⟩

lemma enterPrecommit_frame (env : Env) (h : Nat) (r : Int) (s : RoundState)
    (res : StepRes) (hres : enterPrecommit env h r s = some res) :
    res.st.Height = s.Height ∧ s.Round ≤ res.st.Round ∧ res.calls = [] ∧
    noNewHeightTimeout res.fx ∧
    (s.LockedRound ≤ s.Round → lockChangeOK r s res.st) := by
  unfold enterPrecommit at hres
  split at hres
  · cases hres
    exact ⟨rfl, le_refl _, rfl, noNewHeightTimeout_nil,
           fun _ => Or.inl rfl⟩
  · next hg =>
    have hr : s.Round ≤ r := by omega
    have hsv : ∀ (t : VoteType) (hv : Bytes) (hd : PartSetHeader) (s' : RoundState),
        noNewHeightTimeout ((signAddVote env t hv hd s').2 ++ [Effect.eventNewRoundStep]) :=
      fun t hv hd s' => noNewHeightTimeout_append (signAddVote_noNH env t hv hd s')
        (noNewHeightTimeout_cons (by intro a b hc; cases hc) noNewHeightTimeout_nil)
    repeat' split at hres
    all_goals try (exact Option.noConfusion hres)
    all_goals cases hres
    all_goals refine ⟨?_, ?_, ?_, ?_, fun hL => ?_⟩
    all_goals try rfl
    all_goals try (split <;> rfl)
    all_goals try (exact hr)
    all_goals try (exact hsv _ _ _ _)
    all_goals try
      (exact noNewHeightTimeout_cons (by intro a b hc; cases hc) (hsv _ _ _ _))
    all_goals try
      (exact noNewHeightTimeout_cons (by intro a b hc; cases hc)
        (noNewHeightTimeout_cons (by intro a b hc; cases hc) (hsv _ _ _ _)))
    all_goals try (exact Or.inl rfl)
    all_goals try (exact Or.inr (Or.inl ⟨rfl, rfl, rfl⟩))
    all_goals try (split <;> exact Or.inr (Or.inl ⟨rfl, rfl, rfl⟩))
    all_goals exact Or.inr (Or.inr ⟨rfl, le_trans hL hr⟩)

lemma finalizeCommit_frame (env : Env) (h : Nat) (s : RoundState)
    (res : StepRes) (hres : finalizeCommit env h s = some res) :
    res.st.Height = s.Height ∧ lockTriple res.st = lockTriple s ∧
    s.Round ≤ res.st.Round ∧ res.calls = [] ∧ noNewHeightTimeout res.fx := by
  unfold finalizeCommit at hres
  repeat' split at hres
  all_goals try (exact Option.noConfusion hres)
  all_goals cases hres
  all_goals refine ⟨rfl, rfl, le_refl _, rfl, ?_⟩
  all_goals intro a b hmem
  all_goals simp at hmem

lemma tryFinalizeCommit_frame (env : Env) (h : Nat) (s : RoundState)
    (res : StepRes) (hres : tryFinalizeCommit env h s = some res) :
    res.st.Height = s.Height ∧ lockTriple res.st = lockTriple s ∧
    s.Round ≤ res.st.Round ∧ res.calls = [] ∧ noNewHeightTimeout res.fx := by
  unfold tryFinalizeCommit at hres
  repeat' split at hres
  all_goals try (exact Option.noConfusion hres)
  all_goals try (exact finalizeCommit_frame env h s res hres)
  all_goals cases hres
  all_goals exact ⟨rfl, rfl, le_refl _, rfl, noNewHeightTimeout_nil⟩

lemma enterCommit_frame (env : Env) (h : Nat) (cr : Int) (s : RoundState)
    (res : StepRes) (hres : enterCommit env h cr s = some res) :
    res.st.Height = s.Height ∧ lockTriple res.st = lockTriple s ∧
    s.Round ≤ res.st.Round ∧ res.calls = [] ∧ noNewHeightTimeout res.fx := by
  unfold enterCommit at hres
  split at hres
  · cases hres
    exact ⟨rfl, rfl, le_refl _, rfl, noNewHeightTimeout_nil⟩
  · split at hres
    · exact Option.noConfusion hres
    · dsimp only at hres
      repeat' split at hres
      all_goals try (exact Option.noConfusion hres)
      all_goals
        rename_i rf heq
        cases hres
        obtain ⟨f1, f2, f3, f4, f5⟩ := tryFinalizeCommit_frame env h _ rf heq
        refine ⟨?_, ?_, ?_, by simp [f4], ?_⟩
        · rw [f1]
          repeat' split
          all_goals rfl
        · rw [f2]
          repeat' split
          all_goals rfl
        · refine le_trans ?_ f3
          repeat' split
          all_goals exact le_refl _
        · exact noNewHeightTimeout_cons (by intro a b hc; cases hc) f5

lemma guardStd_of_not_ahead (h : Nat) (r : Int) (V : Nat) (s : RoundState)
    (hn : ¬ aheadOf h r V s) :
    s.Height ≠ h ∨ r < s.Round ∨ (s.Round = r ∧ V ≤ s.Step.val) := by
  unfold aheadOf at hn
  push_neg at hn
  by_cases hH : s.Height = h
  · obtain ⟨-, h2⟩ := hn
    obtain ⟨h4, h5⟩ := h2 hH
    rcases lt_or_eq_of_le h4 with hlt | heq
    · exact Or.inr (Or.inl hlt)
    · exact Or.inr (Or.inr ⟨heq.symm, h5 heq.symm⟩)
  · exact Or.inl hH

lemma step_ne_newHeight_of_val {st : RoundStepType}
    (hv : RoundStepType.NewRound.val ≤ st.val) : st ≠ RoundStepType.NewHeight := by
  intro he
  subst he
  simp [RoundStepType.val] at hv

/-- C3: every `enter*` transition whose target `(height, round, step)` is
not strictly ahead of the current `(Height, Round, Step)` in lexicographic
order is a no-op: it returns the state unchanged with no effect (no event,
no vote, no timeout); for `enterCommit` the target step is reached at the
current round. -/
theorem claim_c3_enter_guard_noop (env : Env) (h : Nat) (r : Int) (s : RoundState) :
    (¬ aheadOf h r RoundStepType.NewRound.val s →
       enterNewRound env h r s = some ⟨s, [], [(h, r)]⟩) ∧
    (¬ aheadOf h r RoundStepType.Propose.val s →
       enterPropose env h r s = some ⟨s, [], []⟩) ∧
    (¬ aheadOf h r RoundStepType.Prevote.val s →
       enterPrevote env h r s = some ⟨s, [], []⟩) ∧
    (¬ aheadOf h r RoundStepType.PrevoteWait.val s →
       enterPrevoteWait env h r s = some ⟨s, [], []⟩) ∧
    (¬ aheadOf h r RoundStepType.Precommit.val s →
       enterPrecommit env h r s = some ⟨s, [], []⟩) ∧
    (¬ aheadOf h r RoundStepType.PrecommitWait.val s →
       enterPrecommitWait env h r s = some ⟨s, [], []⟩) ∧
    (¬ aheadOf h s.Round RoundStepType.Commit.val s →
       enterCommit env h r s = some ⟨s, [], []⟩) := by
  refine ⟨?_, ?_, ?_, ?_, ?_, ?_, ?_⟩
  · intro hn
    unfold enterNewRound
    have hg := guardStd_of_not_ahead h r _ s hn
    rw [if_pos ?_]
    rcases hg with hH | hR | ⟨hEq, hVal⟩
    · exact Or.inl hH
    · exact Or.inr (Or.inl hR)
    · exact Or.inr (Or.inr ⟨hEq, step_ne_newHeight_of_val hVal⟩)
  · intro hn
    unfold enterPropose
    rw [if_pos (guardStd_of_not_ahead h r _ s hn)]
  · intro hn
    unfold enterPrevote
    rw [if_pos (guardStd_of_not_ahead h r _ s hn)]
  · intro hn
    unfold enterPrevoteWait
    rw [if_pos (guardStd_of_not_ahead h r _ s hn)]
  · intro hn
    unfold enterPrecommit
    rw [if_pos (guardStd_of_not_ahead h r _ s hn)]
  · intro hn
    unfold enterPrecommitWait
    rw [if_pos (guardStd_of_not_ahead h r _ s hn)]
  · intro hn
    unfold enterCommit
    have hg := guardStd_of_not_ahead h s.Round _ s hn
    rw [if_pos ?_]
    rcases hg with hH | hR | ⟨-, hVal⟩
    · exact Or.inl hH
    · exact absurd hR (lt_irrefl _)
    · exact Or.inr hVal

/-- Witness for C3 at a concrete state: height 2, round 3, step Commit;
all seven targets at height 1 are behind, and every call is a no-op. -/
theorem claim_c3_witness :
    (¬ aheadOf 1 0 RoundStepType.NewRound.val
        { rs0 with Height := 2, Round := 3, Step := RoundStepType.Commit }) ∧
    enterNewRound env0 1 0
        { rs0 with Height := 2, Round := 3, Step := RoundStepType.Commit } =
      some ⟨{ rs0 with Height := 2, Round := 3, Step := RoundStepType.Commit },
            [], [(1, 0)]⟩ ∧
    enterPrecommit env0 1 0
        { rs0 with Height := 2, Round := 3, Step := RoundStepType.Commit } =
      some ⟨{ rs0 with Height := 2, Round := 3, Step := RoundStepType.Commit },
            [], []⟩ := by
  have hn : ¬ aheadOf 1 0 RoundStepType.NewRound.val
      { rs0 with Height := 2, Round := 3, Step := RoundStepType.Commit } := by
    unfold aheadOf
    simp [rs0, RoundStepType.val]
  refine ⟨hn, ?_, ?_⟩
  · exact (claim_c3_enter_guard_noop env0 1 0 _).1 hn
  · refine (claim_c3_enter_guard_noop env0 1 0 _).2.2.2.2.1 ?_
    unfold aheadOf
    simp [rs0, RoundStepType.val]

/-- C8: a timeout for a different height, an earlier round, or an earlier
step of the same round is ignored: `handleTimeout` returns with the state
unchanged and performs no transition and no effect. -/
theorem claim_c8_stale_timeout_ignored (env : Env) (ti : TimeoutInfo)
    (s : RoundState)
    (hstale : ti.height ≠ s.Height ∨ ti.round < s.Round ∨
      (ti.round = s.Round ∧ ti.step.val < s.Step.val)) :
    handleTimeout env ti s = some ⟨s, [], []⟩ := by
  unfold handleTimeout
  rw [if_pos hstale]

/-- Witness for C8: a Propose-step timeout for round 0 arriving while the
state is at round 2 is dropped. -/
theorem claim_c8_witness :
    ((0 : Int) < (2 : Int)) ∧
    handleTimeout env0 ⟨1, 0, RoundStepType.Propose⟩ { rs0 with Round := 2 } =
      some ⟨{ rs0 with Round := 2 }, [], []⟩ := by
  refine ⟨by decide, ?_⟩
  exact claim_c8_stale_timeout_ignored env0 ⟨1, 0, RoundStepType.Propose⟩
    { rs0 with Round := 2 } (by right; left; simp [rs0])

/-- C6: `defaultSetProposal` silently ignores a proposal when one is
already set, the (height, round) differs, or the step is Commit or later;
past those guards it rejects with the POL-round error exactly when the POL
round is neither -1 nor in `[0, round)`, then with the signature error
exactly when the signature does not verify against the current proposer,
and otherwise stores the proposal and initializes the proposal block parts
from its header. -/
theorem claim_c6_set_proposal (env : Env) (p : Proposal) (s : RoundState) :
    ((s.Proposal ≠ none ∨ p.height ≠ s.Height ∨ p.round ≠ s.Round ∨
        RoundStepType.Commit.val ≤ s.Step.val) →
      defaultSetProposal env p s = (none, s)) ∧
    (s.Proposal = none → p.height = s.Height → p.round = s.Round →
     s.Step.val < RoundStepType.Commit.val →
      (((defaultSetProposal env p s).1 = some ProposalErr.invalidPOLRound) ↔
        ¬ (p.polRound = -1 ∨ (0 ≤ p.polRound ∧ p.polRound < p.round))) ∧
      ((p.polRound = -1 ∨ (0 ≤ p.polRound ∧ p.polRound < p.round)) →
        (((defaultSetProposal env p s).1 = some ProposalErr.invalidSignature) ↔
          env.verifyProposalSig s.Validators.proposer p = false) ∧
        (env.verifyProposalSig s.Validators.proposer p = true →
          defaultSetProposal env p s =
            (none, { s with Proposal := some p,
                            ProposalBlockParts := some ⟨p.blockPartsHeader⟩ })))) := by
  constructor
  · intro hg
    unfold defaultSetProposal
    by_cases hP : s.Proposal.isSome
    · rw [if_pos hP]
    · rcases hg with hPr | hH | hR | hS
      · exact absurd (Option.not_isSome_iff_eq_none.mp hP) hPr
      · rw [if_neg hP, if_pos (Or.inl hH)]
      · rw [if_neg hP, if_pos (Or.inr hR)]
      · by_cases hHR : p.height ≠ s.Height ∨ p.round ≠ s.Round
        · rw [if_neg hP, if_pos hHR]
        · rw [if_neg hP, if_neg hHR, if_pos hS]
  · intro hP hH hR hS
    have hPn : ¬ s.Proposal.isSome := by simp [hP]
    have hHR : ¬ (p.height ≠ s.Height ∨ p.round ≠ s.Round) := by
      push_neg
      exact ⟨hH, hR⟩
    have hSn : ¬ RoundStepType.Commit.val ≤ s.Step.val := not_le.mpr hS
    by_cases hpol : p.polRound ≠ -1 ∧ (p.polRound < 0 ∨ p.round ≤ p.polRound)
    · -- rejected with the POL-round error
      have hres : defaultSetProposal env p s = (some ProposalErr.invalidPOLRound, s) := by
        unfold defaultSetProposal
        rw [if_neg hPn, if_neg hHR, if_neg hSn, if_pos hpol]
      refine ⟨?_, ?_⟩
      · rw [hres]
        simp only [true_iff]
        intro hAB
        rcases hAB with h1 | ⟨h0, hlt⟩
        · exact hpol.1 h1
        · rcases hpol.2 with hneg | hge
          · exact absurd h0 (not_le.mpr hneg)
          · exact absurd hlt (not_lt.mpr hge)
      · intro hAB
        exfalso
        rcases hAB with h1 | ⟨h0, hlt⟩
        · exact hpol.1 h1
        · rcases hpol.2 with hneg | hge
          · exact absurd h0 (not_le.mpr hneg)
          · exact absurd hlt (not_lt.mpr hge)
    · have hAB : p.polRound = -1 ∨ (0 ≤ p.polRound ∧ p.polRound < p.round) := by
        push_neg at hpol
        by_cases h1 : p.polRound = -1
        · exact Or.inl h1
        · exact Or.inr (hpol h1)
      by_cases hv : env.verifyProposalSig s.Validators.proposer p = true
      · have hres : defaultSetProposal env p s =
            (none, { s with Proposal := some p,
                            ProposalBlockParts := some ⟨p.blockPartsHeader⟩ }) := by
          unfold defaultSetProposal
          rw [if_neg hPn, if_neg hHR, if_neg hSn, if_neg hpol, if_neg (by simp [hv])]
        refine ⟨?_, fun _ => ⟨?_, fun _ => hres⟩⟩
        · rw [hres]
          simp [hAB]
        · rw [hres]
          simp [hv]
      · have hv' : env.verifyProposalSig s.Validators.proposer p = false := by
          simp at hv
          exact hv
        have hres : defaultSetProposal env p s = (some ProposalErr.invalidSignature, s) := by
          unfold defaultSetProposal
          rw [if_neg hPn, if_neg hHR, if_neg hSn, if_neg hpol, if_pos (by simp [hv'])]
        refine ⟨?_, fun _ => ⟨?_, fun hc => absurd hc (by simp [hv'])⟩⟩
        · rw [hres]
          simp [hAB]
        · rw [hres]
          simp [hv']

/-- Witness for C6: a fresh state accepts a well-formed proposal for
(height 1, round 0) with POL round -1 and a valid signature, storing it. -/
theorem claim_c6_witness :
    (rs0.Proposal = none ∧ (1 : Nat) = rs0.Height ∧ (0 : Int) = rs0.Round ∧
     rs0.Step.val < RoundStepType.Commit.val ∧
     ((-1 : Int) = -1 ∨ ((0 : Int) ≤ -1 ∧ (-1 : Int) < 0)) ∧
     env0.verifyProposalSig rs0.Validators.proposer ⟨1, 0, ⟨1, [3]⟩, -1, bidNil⟩ = true) ∧
    defaultSetProposal env0 ⟨1, 0, ⟨1, [3]⟩, -1, bidNil⟩ rs0 =
      (none, { rs0 with Proposal := some ⟨1, 0, ⟨1, [3]⟩, -1, bidNil⟩,
                        ProposalBlockParts := some ⟨⟨1, [3]⟩⟩ }) := by
  refine ⟨⟨by decide, by decide, by decide, by decide, by decide, by decide⟩, ?_⟩
  exact (((claim_c6_set_proposal env0 ⟨1, 0, ⟨1, [3]⟩, -1, bidNil⟩ rs0).2
    (by decide) (by decide) (by decide) (by decide)).2 (by decide)).2 (by decide)

lemma attemptsOf_signAddVote (env : Env) (t : VoteType) (hv : Bytes)
    (hd : PartSetHeader) (s : RoundState) :
    attemptsOf (signAddVote env t hv hd s).2 = [(t, hv, hd)] := by
  unfold signAddVote
  cases s.privValidator
  · simp [attemptsOf]
  · dsimp only
    split
    · simp [attemptsOf]
    · split
      · simp [attemptsOf]
      · simp [attemptsOf]

/-- C10: `signAddVote` returns nil and sends nothing on the internal
queue whenever the node has no private validator or its address is not in
the current validator set; a node outside the validator set emits no
vote. -/
theorem claim_c10_non_validator_no_vote (env : Env) (t : VoteType) (hv : Bytes)
    (hd : PartSetHeader) (s : RoundState)
    (hout : s.privValidator = none ∨
      ∃ a, s.privValidator = some a ∧ hasAddress s.Validators a = false) :
    (signAddVote env t hv hd s).1 = none ∧
    ∀ v, Effect.internalVoteMsg v ∉ (signAddVote env t hv hd s).2 := by
  unfold signAddVote
  rcases hout with hn | ⟨a, ha, hout⟩
  · rw [hn]
    exact ⟨rfl, by intro v hmem; simp at hmem⟩
  · rw [ha]
    dsimp only
    rw [if_pos (by simp [hout])]
    exact ⟨rfl, by intro v hmem; simp at hmem⟩

/-- Witness for C10: a node whose key is absent from the validator set
signs nothing. -/
theorem claim_c10_witness :
    (∃ a, ({ rs0 with privValidator := some [8] } : RoundState).privValidator = some a ∧
      hasAddress ({ rs0 with privValidator := some [8] } : RoundState).Validators a = false) ∧
    (signAddVote env0 VoteType.prevote [1, 2] emptyPSH
        { rs0 with privValidator := some [8] }).1 = none := by
  refine ⟨⟨[8], rfl, by decide⟩, ?_⟩
  exact (claim_c10_non_validator_no_vote env0 VoteType.prevote [1, 2] emptyPSH
    { rs0 with privValidator := some [8] }
    (Or.inr ⟨[8], rfl, by decide⟩)).1

lemma doPrevote_attempts (env : Env) (h : Nat) (r : Int) (s : RoundState) :
    attemptsOf (defaultDoPrevote env h r s) =
      (match s.LockedBlock with
       | some b => [(VoteType.prevote, b.hash, partsHeaderOf s.LockedBlockParts)]
       | none =>
         match s.ProposalBlock with
         | none => [(VoteType.prevote, ([] : Bytes), emptyPSH)]
         | some b =>
           if env.validateBasic b = false ∨
               (isProposerSelf s = false ∧
                 (env.validateTX4 b = false ∨ chainValidatorFails env b = true)) ∨
               nextEpochInvalid env s b = true
           then [(VoteType.prevote, ([] : Bytes), emptyPSH)]
           else [(VoteType.prevote, b.hash, partsHeaderOf s.ProposalBlockParts)]) := by
  unfold defaultDoPrevote
  cases s.LockedBlock
  · cases s.ProposalBlock
    · simp [attemptsOf_signAddVote]
    · dsimp only
      repeat' split
      all_goals simp_all [attemptsOf_signAddVote]
  · simp [attemptsOf_signAddVote]

/-- C2: the default prevote rule votes for the locked block when locked;
nil when there is no proposal block; nil when basic validation, or (for a
non-proposer) TX4 or application validation, or next-epoch validation (for
a proposed next epoch) fails; and otherwise for the proposal block. -/
theorem claim_c2_prevote_rule (env : Env) (h : Nat) (r : Int) (s : RoundState) :
    (∀ b, s.LockedBlock = some b →
      attemptsOf (defaultDoPrevote env h r s) =
        [(VoteType.prevote, b.hash, partsHeaderOf s.LockedBlockParts)]) ∧
    (s.LockedBlock = none → s.ProposalBlock = none →
      attemptsOf (defaultDoPrevote env h r s) =
        [(VoteType.prevote, ([] : Bytes), emptyPSH)]) ∧
    (∀ b, s.LockedBlock = none → s.ProposalBlock = some b →
      (env.validateBasic b = false ∨
       (isProposerSelf s = false ∧
         (env.validateTX4 b = false ∨ chainValidatorFails env b = true)) ∨
       nextEpochInvalid env s b = true) →
      attemptsOf (defaultDoPrevote env h r s) =
        [(VoteType.prevote, ([] : Bytes), emptyPSH)]) ∧
    (∀ b, s.LockedBlock = none → s.ProposalBlock = some b →
      env.validateBasic b = true →
      (isProposerSelf s = true ∨
        (env.validateTX4 b = true ∧ chainValidatorFails env b = false)) →
      nextEpochInvalid env s b = false →
      attemptsOf (defaultDoPrevote env h r s) =
        [(VoteType.prevote, b.hash, partsHeaderOf s.ProposalBlockParts)]) := by
  refine ⟨?_, ?_, ?_, ?_⟩
  · intro b hb
    rw [doPrevote_attempts, hb]
  · intro h1 h2
    rw [doPrevote_attempts, h1, h2]
  · intro b h1 h2 hbad
    rw [doPrevote_attempts, h1, h2]
    dsimp only
    rw [if_pos hbad]
  · intro b h1 h2 hvb hok hne
    rw [doPrevote_attempts, h1, h2]
    dsimp only
    rw [if_neg ?_]
    intro hc
    rcases hc with hc | ⟨hp, hc2⟩ | hc
    · simp [hvb] at hc
    · rcases hok with hps | ⟨ht, hcv⟩
      · simp [hps] at hp
      · rcases hc2 with hc3 | hc3
        · simp [ht] at hc3
        · simp [hcv] at hc3
    · simp [hne] at hc

/-- Witness for C2: a state locked on `blk1` prevotes the locked block's
hash, and an unlocked state with a valid proposal block prevotes the
proposal block's hash. -/
theorem claim_c2_witness :
    (({ rs0 with LockedBlock := some blk1,
                 LockedBlockParts := some ⟨⟨1, [3]⟩⟩ } : RoundState).LockedBlock =
        some blk1) ∧
    attemptsOf (defaultDoPrevote env0 1 0
        { rs0 with LockedBlock := some blk1, LockedBlockParts := some ⟨⟨1, [3]⟩⟩ }) =
      [(VoteType.prevote, blk1.hash, partsHeaderOf (some ⟨⟨1, [3]⟩⟩))] ∧
    attemptsOf (defaultDoPrevote env0 1 0
        { rs0 with ProposalBlock := some blk1, ProposalBlockParts := some ⟨⟨1, [3]⟩⟩ }) =
      [(VoteType.prevote, blk1.hash, partsHeaderOf (some ⟨⟨1, [3]⟩⟩))] := by
  refine ⟨rfl, ?_, ?_⟩
  · exact (claim_c2_prevote_rule env0 1 0 _).1 blk1 rfl
  · exact (claim_c2_prevote_rule env0 1 0 _).2.2.2 blk1 rfl rfl (by decide)
      (Or.inl (by decide)) (by decide)

lemma attemptsOf_append (xs ys : List Effect) :
    attemptsOf (xs ++ ys) = attemptsOf xs ++ attemptsOf ys := by
  induction xs with
  | nil => rfl
  | cons e rest ih =>
    cases e <;> simp [attemptsOf, ih]

lemma isEmpty_false_of_ne_nil {hv : Bytes} (hnn : hv ≠ []) : hv.isEmpty = false := by
  cases hv
  · exact absurd rfl hnn
  · rfl

/-- C1: the precommit cast and the lock update of a guard-passing
`enterPrecommit(H, R)` are determined by the prevote +2/3 majority at
round R (given the sanity check on the POL round): no majority leaves the
lock alone and precommits nil; a nil majority while locked unlocks, fires
Unlock and precommits nil; a majority for the locked block relocks at R
and precommits it; a majority for a validating proposal block locks it at
R, fires Lock and precommits it; a majority for an unavailable block
unlocks, fires Unlock and precommits nil. -/
theorem claim_c1_precommit_rule (env : Env) (h : Nat) (r : Int) (s : RoundState)
    (hH : s.Height = h) (hR : ¬ r < s.Round)
    (hS : s.Round = r → s.Step.val < RoundStepType.Precommit.val) :
    (s.Votes.prevotesMaj23 r = none →
      (enterPrecommit env h r s).map
          (fun res => (attemptsOf res.fx, lockTriple res.st)) =
        some ([(VoteType.precommit, ([] : Bytes), emptyPSH)], lockTriple s)) ∧
    (∀ bid, s.Votes.prevotesMaj23 r = some bid → r ≤ s.Votes.polRound →
      bid.hash = [] → s.LockedBlock ≠ none →
      (enterPrecommit env h r s).map
          (fun res => (attemptsOf res.fx, lockTriple res.st)) =
        some ([(VoteType.precommit, ([] : Bytes), emptyPSH)],
              ((0 : Int), none, none)) ∧
      ∀ res, enterPrecommit env h r s = some res → Effect.eventUnlock ∈ res.fx) ∧
    (∀ bid, s.Votes.prevotesMaj23 r = some bid → r ≤ s.Votes.polRound →
      hashesTo s.LockedBlock bid.hash = true →
      (enterPrecommit env h r s).map
          (fun res => (attemptsOf res.fx, lockTriple res.st)) =
        some ([(VoteType.precommit, bid.hash, bid.partsHeader)],
              (r, s.LockedBlock, s.LockedBlockParts)) ∧
      ∀ res, enterPrecommit env h r s = some res → Effect.eventRelock ∈ res.fx) ∧
    (∀ bid, s.Votes.prevotesMaj23 r = some bid → r ≤ s.Votes.polRound →
      bid.hash ≠ [] → hashesTo s.LockedBlock bid.hash = false →
      hashesTo s.ProposalBlock bid.hash = true →
      (∀ pb, s.ProposalBlock = some pb → env.validateBasic pb = true) →
      (enterPrecommit env h r s).map
          (fun res => (attemptsOf res.fx, lockTriple res.st)) =
        some ([(VoteType.precommit, bid.hash, bid.partsHeader)],
              (r, s.ProposalBlock, s.ProposalBlockParts)) ∧
      ∀ res, enterPrecommit env h r s = some res → Effect.eventLock ∈ res.fx) ∧
    (∀ bid, s.Votes.prevotesMaj23 r = some bid → r ≤ s.Votes.polRound →
      bid.hash ≠ [] → hashesTo s.LockedBlock bid.hash = false →
      hashesTo s.ProposalBlock bid.hash = false →
      (enterPrecommit env h r s).map
          (fun res => (attemptsOf res.fx, lockTriple res.st)) =
        some ([(VoteType.precommit, ([] : Bytes), emptyPSH)],
              ((0 : Int), none, none)) ∧
      ∀ res, enterPrecommit env h r s = some res → Effect.eventUnlock ∈ res.fx) := by
  have hguard : ¬ (s.Height ≠ h ∨ r < s.Round ∨
      (s.Round = r ∧ RoundStepType.Precommit.val ≤ s.Step.val)) := by
    intro hg
    rcases hg with h1 | h2 | ⟨h3, h4⟩
    · exact h1 hH
    · exact hR h2
    · exact absurd h4 (not_le.mpr (hS h3))
  refine ⟨?_, ?_, ?_, ?_, ?_⟩
  · intro hm
    unfold enterPrecommit
    rw [if_neg hguard, hm]
    simp [attemptsOf_append, attemptsOf_signAddVote, attemptsOf, lockTriple]
  · intro bid hm hpol hnil hlock
    constructor
    · unfold enterPrecommit
      rw [if_neg hguard, hm]
      dsimp only
      rw [if_neg (not_lt.mpr hpol), if_pos (by simp [hnil]), if_neg hlock]
      simp [attemptsOf_append, attemptsOf_signAddVote, attemptsOf, lockTriple]
    · intro res hres
      unfold enterPrecommit at hres
      rw [if_neg hguard, hm] at hres
      dsimp only at hres
      rw [if_neg (not_lt.mpr hpol), if_pos (by simp [hnil]), if_neg hlock] at hres
      cases hres
      simp
  · intro bid hm hpol hlockT
    have hnn : bid.hash.isEmpty = false := by
      unfold hashesTo at hlockT
      cases hL : s.LockedBlock
      · rw [hL] at hlockT
        cases hlockT
      · rw [hL] at hlockT
        simp at hlockT
        simp [hlockT.1]
    constructor
    · unfold enterPrecommit
      rw [if_neg hguard, hm]
      dsimp only
      rw [if_neg (not_lt.mpr hpol), if_neg (by simp [hnn]), if_pos hlockT]
      simp [attemptsOf_append, attemptsOf_signAddVote, attemptsOf, lockTriple]
    · intro res hres
      unfold enterPrecommit at hres
      rw [if_neg hguard, hm] at hres
      dsimp only at hres
      rw [if_neg (not_lt.mpr hpol), if_neg (by simp [hnn]), if_pos hlockT] at hres
      cases hres
      simp
  · intro bid hm hpol hnn hlockF hpropT hval
    have hnn' : bid.hash.isEmpty = false := isEmpty_false_of_ne_nil hnn
    obtain ⟨pb, hpb⟩ : ∃ pb, s.ProposalBlock = some pb := by
      cases hP : s.ProposalBlock
      · rw [hP] at hpropT
        cases hpropT
      · exact ⟨_, rfl⟩
    constructor
    · unfold enterPrecommit
      rw [if_neg hguard, hm]
      dsimp only
      rw [if_neg (not_lt.mpr hpol), if_neg (by simp [hnn']),
          if_neg (by simp [hlockF]), if_pos hpropT, hpb]
      dsimp only
      rw [if_neg (by simp [hval pb hpb])]
      simp [attemptsOf_append, attemptsOf_signAddVote, attemptsOf, lockTriple, hpb]
    · intro res hres
      unfold enterPrecommit at hres
      rw [if_neg hguard, hm] at hres
      dsimp only at hres
      rw [if_neg (not_lt.mpr hpol), if_neg (by simp [hnn']),
          if_neg (by simp [hlockF]), if_pos hpropT, hpb] at hres
      dsimp only at hres
      rw [if_neg (by simp [hval pb hpb])] at hres
      cases hres
      simp
  · intro bid hm hpol hnn hlockF hpropF
    have hnn' : bid.hash.isEmpty = false := isEmpty_false_of_ne_nil hnn
    constructor
    · unfold enterPrecommit
      rw [if_neg hguard, hm]
      dsimp only
      rw [if_neg (not_lt.mpr hpol), if_neg (by simp [hnn']),
          if_neg (by simp [hlockF]), if_neg (by simp [hpropF])]
      split <;>
        simp [attemptsOf_append, attemptsOf_signAddVote, attemptsOf, lockTriple]
    · intro res hres
      unfold enterPrecommit at hres
      rw [if_neg hguard, hm] at hres
      dsimp only at hres
      rw [if_neg (not_lt.mpr hpol), if_neg (by simp [hnn']),
          if_neg (by simp [hlockF]), if_neg (by simp [hpropF])] at hres
      split at hres <;> (cases hres; simp)

/-- Witness for C1, lock-on-proposal case: with a +2/3 prevote majority at
round 0 for the proposal block, the node locks it at round 0 and
precommits its hash. -/
theorem claim_c1_witness :
    (({ rs0 with Step := RoundStepType.Prevote, ProposalBlock := some blk1,
                 ProposalBlockParts := some ⟨⟨1, [3]⟩⟩,
                 Votes := hvsPrevoteMaj 0 bid1 } : RoundState).Votes.prevotesMaj23 0 =
        some bid1 ∧
     bid1.hash ≠ [] ∧
     hashesTo (some blk1) bid1.hash = true) ∧
    (enterPrecommit env0 1 0
        { rs0 with Step := RoundStepType.Prevote, ProposalBlock := some blk1,
                   ProposalBlockParts := some ⟨⟨1, [3]⟩⟩,
                   Votes := hvsPrevoteMaj 0 bid1 }).map
        (fun res => (attemptsOf res.fx, lockTriple res.st)) =
      some ([(VoteType.precommit, bid1.hash, bid1.partsHeader)],
            ((0 : Int), some blk1, some ⟨⟨1, [3]⟩⟩)) := by
  refine ⟨⟨by decide, by decide, by decide⟩, ?_⟩
  exact ((claim_c1_precommit_rule env0 1 0 _ (by decide) (by decide)
      (fun _ => by decide)).2.2.2.1 bid1 (by decide) (by decide) (by decide)
      (by decide) (by decide) (fun pb hpb => rfl)).1

lemma signAddVote_no_unlock (env : Env) (t : VoteType) (hv : Bytes)
    (hd : PartSetHeader) (s : RoundState) :
    Effect.eventUnlock ∉ (signAddVote env t hv hd s).2 := by
  unfold signAddVote
  cases s.privValidator
  · simp
  · dsimp only
    split
    · simp
    · split <;> simp

lemma signAddVote_mem_unlock_iff (env : Env) (t : VoteType) (hv : Bytes)
    (hd : PartSetHeader) (s : RoundState) :
    (Effect.eventUnlock ∈ (signAddVote env t hv hd s).2) ↔ False :=
  ⟨fun hm => signAddVote_no_unlock env t hv hd s hm, False.elim⟩

/-- C9: every unlock performed by the driver sets the locking triple to
`(0, nil, nil)` — round 0, not -1: whenever `enterPrecommit` fires Unlock
(the nil-polka and unavailable-block paths) the resulting state has
`LockedRound = 0` and cleared block and parts, and the POL-based unlock in
the prevote branch of `addVote` produces the same triple. -/
theorem claim_c9_unlock_state (env : Env) (h : Nat) (r : Int) (s : RoundState) :
    (∀ res, enterPrecommit env h r s = some res → Effect.eventUnlock ∈ res.fx →
      res.st.LockedRound = 0 ∧ res.st.LockedBlock = none ∧
      res.st.LockedBlockParts = none) ∧
    (∀ votes1 vr, Effect.eventUnlock ∈ (prevoteUnlock votes1 vr s).2 →
      (prevoteUnlock votes1 vr s).1.LockedRound = 0 ∧
      (prevoteUnlock votes1 vr s).1.LockedBlock = none ∧
      (prevoteUnlock votes1 vr s).1.LockedBlockParts = none) := by
  constructor
  · intro res hres hmem
    unfold enterPrecommit at hres
    repeat' split at hres
    all_goals try (exact Option.noConfusion hres)
    all_goals cases hres
    all_goals try (exact ⟨rfl, rfl, rfl⟩)
    all_goals try (split <;> exact ⟨rfl, rfl, rfl⟩)
    all_goals exfalso
    all_goals simp [signAddVote_mem_unlock_iff] at hmem
  · intro votes1 vr hmem
    unfold prevoteUnlock at hmem ⊢
    repeat' split
    all_goals try (exact ⟨rfl, rfl, rfl⟩)
    all_goals (exfalso; simp_all)

/-- Witness for C9: the nil-polka unlock of `enterPrecommit` and the
POL-based unlock of the prevote branch both leave `(0, nil, nil)`. -/
theorem claim_c9_witness :
    (Effect.eventUnlock ∈ ((enterPrecommit env0 1 0 rs9).getD ⟨rs0, [], []⟩).fx ∧
     ((enterPrecommit env0 1 0 rs9).getD ⟨rs0, [], []⟩).st.LockedRound = 0 ∧
     ((enterPrecommit env0 1 0 rs9).getD ⟨rs0, [], []⟩).st.LockedBlock = none ∧
     ((enterPrecommit env0 1 0 rs9).getD ⟨rs0, [], []⟩).st.LockedBlockParts = none) ∧
    (Effect.eventUnlock ∈ (prevoteUnlock (hvsPrevoteMaj 1 bid1) 1 rs9b).2 ∧
     (prevoteUnlock (hvsPrevoteMaj 1 bid1) 1 rs9b).1.LockedRound = 0 ∧
     (prevoteUnlock (hvsPrevoteMaj 1 bid1) 1 rs9b).1.LockedBlock = none ∧
     (prevoteUnlock (hvsPrevoteMaj 1 bid1) 1 rs9b).1.LockedBlockParts = none) := by
  have hsome : enterPrecommit env0 1 0 rs9 =
      some ((enterPrecommit env0 1 0 rs9).getD ⟨rs0, [], []⟩) := by
    cases hres : enterPrecommit env0 1 0 rs9
    · exfalso
      have hiss : (enterPrecommit env0 1 0 rs9).isSome = true := by decide
      rw [hres] at hiss
      simp at hiss
    · rfl
  have hmem : Effect.eventUnlock ∈
      ((enterPrecommit env0 1 0 rs9).getD ⟨rs0, [], []⟩).fx := by decide
  have hmem2 : Effect.eventUnlock ∈ (prevoteUnlock (hvsPrevoteMaj 1 bid1) 1 rs9b).2 := by
    decide
  obtain ⟨h1, h2, h3⟩ := (claim_c9_unlock_state env0 1 0 rs9).1 _ hsome hmem
  obtain ⟨g1, g2, g3⟩ := (claim_c9_unlock_state env0 0 0 rs9b).2 (hvsPrevoteMaj 1 bid1) 1 hmem2
  exact ⟨⟨hmem, h1, h2, h3⟩, ⟨hmem2, g1, g2, g3⟩⟩

/-- C7: a vote below the current height is silently ignored (not added, no
error, nothing changed); a vote above it is rejected with the
height-mismatch error; `tryAddVote` passes conflicting-votes evidence
through unchanged and maps any other failure of the vote-set add to the
generic adding-vote error. -/
theorem claim_c7_vote_error_handling (env : Env) (v : Vote) (s : RoundState) :
    (v.height < s.Height → addVote env v s = some ⟨false, none, ⟨s, [], []⟩⟩) ∧
    (s.Height < v.height →
      addVote env v s = some ⟨false, some AddVoteErr.heightMismatch, ⟨s, [], []⟩⟩) ∧
    (∀ a e n res,
      addVote env v s = some ⟨a, some (AddVoteErr.hvs (HVSErr.conflicting e n)), res⟩ →
      tryAddVote env v s = some (some (TryAddErr.conflicting e n), res)) ∧
    (∀ a c res,
      addVote env v s = some ⟨a, some (AddVoteErr.hvs (HVSErr.other c)), res⟩ →
      tryAddVote env v s = some (some TryAddErr.addingVote, res)) := by
  refine ⟨?_, ?_, ?_, ?_⟩
  · intro hlt
    unfold addVote
    rw [if_pos hlt]
  · intro hgt
    unfold addVote
    rw [if_neg (by omega), if_neg (by omega)]
  · intro a e n res hres
    unfold tryAddVote
    rw [hres]
  · intro a c res hres
    unfold tryAddVote
    rw [hres]

/-- Witness for C7: a stale vote is ignored, a future vote reports the
height mismatch, a conflicting vote passes through, a generically failing
vote maps to the adding-vote error. -/
theorem claim_c7_witness :
    (({ voteA with height := 0 } : Vote).height < rs0.Height) ∧
    addVote env0 { voteA with height := 0 } rs0 = some ⟨false, none, ⟨rs0, [], []⟩⟩ ∧
    addVote env0 { voteA with height := 2 } rs0 =
      some ⟨false, some AddVoteErr.heightMismatch, ⟨rs0, [], []⟩⟩ ∧
    tryAddVote envConflict voteA rs0 =
      some (some (TryAddErr.conflicting voteA voteB),
            ⟨{ rs0 with Votes := hvs0 }, [], []⟩) ∧
    tryAddVote envBadSig voteA rs0 =
      some (some TryAddErr.addingVote, ⟨{ rs0 with Votes := hvs0 }, [], []⟩) := by
  refine ⟨by decide, ?_, ?_, ?_, ?_⟩
  · exact (claim_c7_vote_error_handling env0 { voteA with height := 0 } rs0).1 (by decide)
  · exact (claim_c7_vote_error_handling env0 { voteA with height := 2 } rs0).2.1 (by decide)
  · refine (claim_c7_vote_error_handling envConflict voteA rs0).2.2.1 false voteA voteB
      ⟨{ rs0 with Votes := hvs0 }, [], []⟩ ?_
    unfold addVote
    rw [if_neg (by decide), if_pos (by decide)]
    rfl
  · refine (claim_c7_vote_error_handling envBadSig voteA rs0).2.2.2 false 0
      ⟨{ rs0 with Votes := hvs0 }, [], []⟩ ?_
    unfold addVote
    rw [if_neg (by decide), if_pos (by decide)]
    rfl

lemma rseq_some {o : Option StepRes} {k : RoundState → Option StepRes} {res : StepRes}
    (hres : rseq o k = some res) :
    ∃ r1 r2, o = some r1 ∧ k r1.st = some r2 ∧
      res = ⟨r2.st, r1.fx ++ r2.fx, r1.calls ++ r2.calls⟩ := by
  unfold rseq at hres
  split at hres
  · exact Option.noConfusion hres
  · next r1 =>
    split at hres
    · exact Option.noConfusion hres
    · next r2 heq =>
      cases hres
      exact ⟨r1, r2, rfl, heq, rfl⟩

lemma lockTriple_lockedRound {s1 s2 : RoundState}
    (h : lockTriple s1 = lockTriple s2) : s1.LockedRound = s2.LockedRound :=
  congrArg Prod.fst h

lemma lockChangeOK_of_const_then {rP : Int} {s sA sB : RoundState}
    (hconst : lockTriple sA = lockTriple s) (hB : lockChangeOK rP sA sB) :
    lockChangeOK rP s sB := by
  rcases hB with h1 | h2 | ⟨h3, h4⟩
  · exact Or.inl (h1.trans hconst)
  · exact Or.inr (Or.inl h2)
  · exact Or.inr (Or.inr ⟨h3, le_trans (le_of_eq (lockTriple_lockedRound hconst).symm) h4⟩)

lemma lockChangeOK_of_then_const {rP : Int} {s sA sB : RoundState}
    (hA : lockChangeOK rP s sA) (hconst : lockTriple sB = lockTriple sA) :
    lockChangeOK rP s sB := by
  rcases hA with h1 | h2 | ⟨h3, h4⟩
  · exact Or.inl (hconst.trans h1)
  · refine Or.inr (Or.inl ?_)
    have h0 := lockTriple_lockedRound hconst
    have hb : sB.LockedBlock = sA.LockedBlock := congrArg (fun t => t.2.1) hconst
    have hp : sB.LockedBlockParts = sA.LockedBlockParts := congrArg (fun t => t.2.2) hconst
    exact ⟨h0.trans h2.1, hb.trans h2.2.1, hp.trans h2.2.2⟩
  · exact Or.inr (Or.inr ⟨(lockTriple_lockedRound hconst).trans h3,
      le_trans h4 (le_of_eq (lockTriple_lockedRound hconst).symm)⟩)

lemma lockChangeOK_after_cleared {rP : Int} {s sA sB : RoundState}
    (hs : s.LockedRound ≤ rP)
    (hA : sA.LockedRound = 0 ∧ sA.LockedBlock = none ∧ sA.LockedBlockParts = none)
    (hB : lockChangeOK rP sA sB) : lockChangeOK rP s sB := by
  rcases hB with h1 | h2 | ⟨h3, h4⟩
  · refine Or.inr (Or.inl ?_)
    have h0 := lockTriple_lockedRound h1
    have hb : sB.LockedBlock = sA.LockedBlock := congrArg (fun t => t.2.1) h1
    have hp : sB.LockedBlockParts = sA.LockedBlockParts := congrArg (fun t => t.2.2) h1
    exact ⟨h0.trans hA.1, hb.trans hA.2.1, hp.trans hA.2.2⟩
  · exact Or.inr (Or.inl h2)
  · exact Or.inr (Or.inr ⟨h3, le_trans hs (le_of_eq h3.symm)⟩)

lemma prevoteUnlock_shape (votes1 : HeightVoteSet) (vr : Int) (s : RoundState) :
    ((prevoteUnlock votes1 vr s).1.Height = s.Height ∧
     (prevoteUnlock votes1 vr s).1.Round = s.Round) ∧
    ((prevoteUnlock votes1 vr s).1 = s ∨
     (lockTriple (prevoteUnlock votes1 vr s).1 = (0, none, none) ∧
      s.LockedRound < vr)) := by
  unfold prevoteUnlock
  repeat' split
  all_goals try (exact ⟨⟨rfl, rfl⟩, Or.inl rfl⟩)
  all_goals
    exact ⟨⟨rfl, rfl⟩, Or.inr ⟨rfl,
      (‹s.LockedBlock ≠ none ∧ s.LockedRound < vr ∧ vr ≤ s.Round›).2.1⟩⟩

lemma cleared_of_lockTriple_eq {s1 : RoundState}
    (h : lockTriple s1 = ((0 : Int), none, none)) :
    s1.LockedRound = 0 ∧ s1.LockedBlock = none ∧ s1.LockedBlockParts = none :=
  ⟨congrArg Prod.fst h, congrArg (fun t => t.2.1) h, congrArg (fun t => t.2.2) h⟩

/-- C4: at a fixed height, the driver only ever changes `LockedRound` by
clearing it together with the locked block and parts (unlock) or by
raising it to the round being processed: this holds for every
guard-passing `enterPrecommit(H, R)` and for the whole `addVote` cascade,
whose processed round is the vote's round. -/
theorem claim_c4_lock_monotonic :
    (∀ (env : Env) (h : Nat) (r : Int) (s : RoundState) (res : StepRes),
       s.LockedRound ≤ s.Round → enterPrecommit env h r s = some res →
       lockChangeOK r s res.st) ∧
    (∀ (env : Env) (v : Vote) (s : RoundState) (avr : AddVoteRes),
       0 ≤ s.Round → s.LockedRound ≤ s.Round → addVote env v s = some avr →
       lockChangeOK (v.round : Int) s avr.res.st) := by
  constructor
  · intro env h r s res hL hres
    exact (enterPrecommit_frame env h r s res hres).2.2.2.2 hL
  · intro env v s avr h0 hL hres
    unfold addVote at hres
    split at hres
    · cases hres
      exact Or.inl rfl
    · split at hres
      · dsimp only at hres
        split at hres
        · -- the vote was added
          split at hres
          · -- prevote
            split at hres
            · exact Option.noConfusion hres
            · next rT heqT =>
              cases hres
              obtain ⟨⟨-, hs2R⟩, hs2shape⟩ :=
                prevoteUnlock_shape (env.addVoteToHVS v s.Votes).2.2 (v.round : Int)
                  { s with Votes := (env.addVoteToHVS v s.Votes).2.2 }
              have hfin : ∀ sB, lockChangeOK (v.round : Int)
                  (prevoteUnlock (env.addVoteToHVS v s.Votes).2.2 (v.round : Int)
                    { s with Votes := (env.addVoteToHVS v s.Votes).2.2 }).1 sB →
                  lockChangeOK (v.round : Int) s sB := by
                intro sB hB
                rcases hs2shape with hsame | ⟨hclr, hlt⟩
                · rw [hsame] at hB
                  exact lockChangeOK_of_const_then rfl hB
                · exact lockChangeOK_after_cleared (le_of_lt hlt)
                    (cleared_of_lockTriple_eq hclr) hB
              have hs2L : (prevoteUnlock (env.addVoteToHVS v s.Votes).2.2 (v.round : Int)
                  { s with Votes := (env.addVoteToHVS v s.Votes).2.2 }).1.LockedRound ≤
                  (prevoteUnlock (env.addVoteToHVS v s.Votes).2.2 (v.round : Int)
                    { s with Votes := (env.addVoteToHVS v s.Votes).2.2 }).1.Round := by
                rcases hs2shape with hsame | ⟨hclr, -⟩
                · rw [hsame]
                  exact hL
                · rw [hs2R, (cleared_of_lockTriple_eq hclr).1]
                  exact h0
              split at heqT
              · obtain ⟨r1, r2, hENR, hk, hrTeq⟩ := rseq_some heqT
                obtain ⟨-, hE2, hE3, -, -⟩ := enterNewRound_frame _ _ _ _ _ hENR
                have hr1L : r1.st.LockedRound ≤ r1.st.Round := by
                  rw [lockTriple_lockedRound hE2]
                  exact le_trans hs2L hE3
                split at hk
                · -- full polka: enterPrecommit at the vote's round
                  have hB := (enterPrecommit_frame _ _ _ _ _ hk).2.2.2.2 hr1L
                  rw [hrTeq]
                  exact hfin _ (lockChangeOK_of_const_then hE2 hB)
                · -- prevote + prevoteWait
                  obtain ⟨rA, rB, hPV, hPW, hr2eq⟩ := rseq_some hk
                  obtain ⟨-, hV2, -, -, -⟩ := enterPrevote_frame _ _ _ _ _ hPV
                  obtain ⟨-, hW2, -, -, -⟩ := enterPrevoteWait_frame _ _ _ _ _ hPW
                  rw [hrTeq, hr2eq]
                  exact hfin _ (Or.inl ((hW2.trans hV2).trans hE2))
              · -- no round-skip: possibly enterPrevote on a completed proposal
                split at heqT
                · split at heqT
                  · split at heqT
                    · obtain ⟨-, hV2, -, -, -⟩ := enterPrevote_frame _ _ _ _ _ heqT
                      exact hfin _ (Or.inl hV2)
                    · cases heqT
                      exact hfin _ (Or.inl rfl)
                  · cases heqT
                    exact hfin _ (Or.inl rfl)
                · cases heqT
                  exact hfin _ (Or.inl rfl)
          · -- precommit
            split at hres
            · exact Option.noConfusion hres
            · next rT heqT =>
              cases hres
              split at heqT
              · split at heqT
                · -- nil majority: next round
                  obtain ⟨-, hE2, -, -, -⟩ := enterNewRound_frame _ _ _ _ _ heqT
                  exact Or.inl hE2
                · -- block majority: new round, precommit, commit, maybe skip
                  obtain ⟨rA, rB, hAB, hK, hTeq⟩ := rseq_some heqT
                  obtain ⟨rC, rD, hCD, hEC, hAeq⟩ := rseq_some hAB
                  obtain ⟨rE, rF, hENR, hEPC, hCeq⟩ := rseq_some hCD
                  obtain ⟨-, hE2, hE3, -, -⟩ := enterNewRound_frame _ _ _ _ _ hENR
                  have hrEL : rE.st.LockedRound ≤ rE.st.Round := by
                    rw [lockTriple_lockedRound hE2]
                    exact le_trans hL hE3
                  have hB := (enterPrecommit_frame _ _ _ _ _ hEPC).2.2.2.2 hrEL
                  obtain ⟨-, hC2, -, -, -⟩ := enterCommit_frame _ _ _ _ _ hEC
                  have hD : lockChangeOK (v.round : Int) s rD.st :=
                    lockChangeOK_of_then_const (lockChangeOK_of_const_then hE2 hB)
                      (by rw [hCeq] at hC2; exact hC2)
                  rw [hTeq]
                  split at hK
                  · obtain ⟨-, hK2, -, -, -⟩ := enterNewRound_frame _ _ _ _ _ hK
                    refine lockChangeOK_of_then_const hD ?_
                    rw [hAeq] at hK2
                    exact hK2
                  · cases hK
                    refine lockChangeOK_of_then_const hD ?_
                    rw [hAeq]
              · split at heqT
                · -- no majority but +2/3-any: precommit-wait
                  obtain ⟨rA, rB, hAB, hPW, hTeq⟩ := rseq_some heqT
                  obtain ⟨rC, rD, hENR, hEPC, hAeq⟩ := rseq_some hAB
                  obtain ⟨-, hE2, hE3, -, -⟩ := enterNewRound_frame _ _ _ _ _ hENR
                  have hrCL : rC.st.LockedRound ≤ rC.st.Round := by
                    rw [lockTriple_lockedRound hE2]
                    exact le_trans hL hE3
                  have hB := (enterPrecommit_frame _ _ _ _ _ hEPC).2.2.2.2 hrCL
                  obtain ⟨-, hW2, -, -, -⟩ := enterPrecommitWait_frame _ _ _ _ _ hPW
                  rw [hTeq]
                  exact lockChangeOK_of_then_const (lockChangeOK_of_const_then hE2 hB)
                    (by rw [hAeq] at hW2; exact hW2)
                · cases heqT
                  exact Or.inl rfl
        · -- the vote was not added
          cases hres
          exact Or.inl rfl
      · -- height above ours
        cases hres
        exact Or.inl rfl

/-- Witness for C4: adding the final precommit at height 1 round 0 runs
the whole cascade and the lock change is admissible for round 0. -/
theorem claim_c4_witness :
    ((0 : Int) ≤ rs0.Round ∧ rs0.LockedRound ≤ rs0.Round) ∧
    lockChangeOK 0 rs0
      (((addVote envPCMaj votePC rs0).getD ⟨false, none, ⟨rs0, [], []⟩⟩).res.st) := by
  have hsome : addVote envPCMaj votePC rs0 =
      some ((addVote envPCMaj votePC rs0).getD ⟨false, none, ⟨rs0, [], []⟩⟩) := by
    cases hres : addVote envPCMaj votePC rs0
    · exfalso
      have hiss : (addVote envPCMaj votePC rs0).isSome = true := by decide
      rw [hres] at hiss
      simp at hiss
    · rfl
  refine ⟨⟨by decide, by decide⟩, ?_⟩
  exact claim_c4_lock_monotonic.2 envPCMaj votePC rs0 _ (by decide) (by decide) hsome

/-- C5: when the added precommit completes a non-nil +2/3 majority with
every validator voting and skip-timeout-commit is configured, `addVote`
ends by invoking `enterNewRound(cs.Height, 0)` immediately — it is the
last transition call of the cascade — and schedules no commit-wait
(NewHeight-step) timeout. -/
theorem claim_c5_skip_timeout_commit (env : Env) (v : Vote) (s : RoundState)
    (avr : AddVoteRes) (bid : BlockID)
    (hty : v.type_ = VoteType.precommit)
    (hh : v.height = s.Height)
    (hadd : (env.addVoteToHVS v s.Votes).1 = true)
    (hskip : s.skipTimeoutCommit = true)
    (hmaj : (env.addVoteToHVS v s.Votes).2.2.precommitsMaj23 (v.round : Int) = some bid)
    (hhash : bid.hash ≠ [])
    (hall : (env.addVoteToHVS v s.Votes).2.2.precommitsHasAll (v.round : Int) = true)
    (hres : addVote env v s = some avr) :
    avr.res.calls.getLast? = some (s.Height, 0) ∧
    ∀ h' r', Effect.scheduleTimeout h' r' RoundStepType.NewHeight ∉ avr.res.fx := by
  unfold addVote at hres
  rw [if_neg (by omega), if_pos hh] at hres
  dsimp only at hres
  split at hres
  · rw [hty] at hres
    dsimp only at hres
    rw [hmaj] at hres
    dsimp only at hres
    rw [if_neg (by simp [isEmpty_false_of_ne_nil hhash])] at hres
    split at hres
    · exact Option.noConfusion hres
    · next rT heqT =>
      cases hres
      obtain ⟨rA, rB, hAB, hK, hTeq⟩ := rseq_some heqT
      obtain ⟨rC, rD, hCD, hEC, hAeq⟩ := rseq_some hAB
      obtain ⟨rE, rF, hENR, hEPC, hCeq⟩ := rseq_some hCD
      obtain ⟨hE1, -, -, hE4, hE5⟩ := enterNewRound_frame _ _ _ _ _ hENR
      obtain ⟨hP1, -, hP3, hP4, -⟩ := enterPrecommit_frame _ _ _ _ _ hEPC
      obtain ⟨hC1, -, -, hC4, hC5⟩ := enterCommit_frame _ _ _ _ _ hEC
      rw [if_pos ⟨hskip, hall⟩] at hK
      obtain ⟨hK1, -, -, hK4, hK5⟩ := enterNewRound_frame _ _ _ _ _ hK
      have hAH : rA.st.Height = s.Height := by
        rw [hAeq]
        show rD.st.Height = s.Height
        rw [hC1, hCeq]
        show rF.st.Height = s.Height
        rw [hP1, hE1]
      rw [hTeq]
      constructor
      · show (rA.calls ++ rB.calls).getLast? = some (s.Height, 0)
        rw [hK4, hAH]
        simp
      · intro h' r'
        show Effect.scheduleTimeout h' r' RoundStepType.NewHeight ∉
          Effect.eventVote v :: (rA.fx ++ rB.fx)
        refine noNewHeightTimeout_cons (by intro a b hc; cases hc) ?_ h' r'
        refine noNewHeightTimeout_append ?_ hK5
        rw [hAeq]
        show noNewHeightTimeout (rC.fx ++ rD.fx)
        refine noNewHeightTimeout_append ?_ hC5
        rw [hCeq]
        show noNewHeightTimeout (rE.fx ++ rF.fx)
        exact noNewHeightTimeout_append hE5 hP4
  · next hne =>
    exact absurd hadd hne

/-- Witness for C5: the final precommit for `bid1` at height 1 round 0,
with skip-timeout-commit set and all precommits in, makes the cascade end
with a call to `enterNewRound(1, 0)`. -/
theorem claim_c5_witness :
    (votePC.type_ = VoteType.precommit ∧ votePC.height = rs0.Height ∧
     (envPCMaj.addVoteToHVS votePC rs0.Votes).1 = true ∧
     rs0.skipTimeoutCommit = true ∧
     (envPCMaj.addVoteToHVS votePC rs0.Votes).2.2.precommitsMaj23
        (votePC.round : Int) = some bid1 ∧
     bid1.hash ≠ [] ∧
     (envPCMaj.addVoteToHVS votePC rs0.Votes).2.2.precommitsHasAll
        (votePC.round : Int) = true) ∧
    ((addVote envPCMaj votePC rs0).getD
        ⟨false, none, ⟨rs0, [], []⟩⟩).res.calls.getLast? = some (rs0.Height, 0) := by
  have hsome : addVote envPCMaj votePC rs0 =
      some ((addVote envPCMaj votePC rs0).getD ⟨false, none, ⟨rs0, [], []⟩⟩) := by
    cases hres : addVote envPCMaj votePC rs0
    · exfalso
      have hiss : (addVote envPCMaj votePC rs0).isSome = true := by decide
      rw [hres] at hiss
      simp at hiss
    · rfl
  refine ⟨⟨by decide, by decide, by decide, by decide, by decide, by decide, by decide⟩, ?_⟩
  exact (claim_c5_skip_timeout_commit envPCMaj votePC rs0 _ bid1 (by decide) (by decide)
    (by decide) (by decide) (by decide) (by decide) (by decide) hsome).1
